import Mathlib

/-!
Verification of the Supabase integration layer (bolt-diy-supabase).

This file gives a shallow embedding, in Lean, of the decision logic of the
repository: the connection verifier, the project-reference generator, the SQL
sanitizer, the two project-status polling loops, the two operation executors,
the management-API proxy handler, and the CREATE TABLE generator.  Remote
calls are modelled by passing their outcomes in explicitly (as values of
small outcome types, or as streams of responses); JavaScript strings are
modelled as `List Char` where character-level reasoning is needed.

Each claim about the code is then settled by a theorem over these
definitions.
-/

namespace BoltSupabase

/-! ## Connection Verifier (src/app/lib/database/supabase.ts)

`verifySupabaseConnection` issues a chain of lightweight probes against the
remote database and classifies the outcomes.  A probe either succeeds,
returns a PostgREST error object carrying a `code` string, or throws (which
the surrounding `try`/`catch` converts to `false`).  The function is a pure
function of the three (resp. two) probe outcomes. -/

/-- Outcome of one remote probe: success, an error object with a code
string, or a thrown exception. -/
inductive ProbeOutcome where
  | ok : ProbeOutcome
  | err (code : String) : ProbeOutcome
  | exn : ProbeOutcome
deriving DecidableEq, Repr

/-- Embedding of `verifySupabaseConnection` (newer variant, lines 212-258):
probe 1 is `rpc('version')`, probe 2 is `from('_sentinel_check_').select`,
probe 3 is `from('_fake_table_to_test_connection_').select`.  A thrown
probe is caught and yields `false`. -/
def verifySupabaseConnection (version sentinel fake : ProbeOutcome) : Bool :=
  match version with
  | .exn => false
  | .ok => true
  | .err vcode =>
    if vcode = "PGRST202" then true
    else
      match sentinel with
      | .exn => false
      | .ok => true
      | .err hcode =>
        if hcode = "PGRST116" ∨ hcode = "42P01" then true
        else
          match fake with
          | .exn => false
          | .ok => false
          | .err acode => acode = "42P01"

/-- Embedding of `verifySupabaseConnection` (older variant, lines 53-94):
probe 1 is `rpc('get_table_info')`, probe 2 is
`from('_test_connection').select(...).single()`. -/
def verifySupabaseConnectionV1 (tableInfo test : ProbeOutcome) : Bool :=
  match tableInfo with
  | .exn => false
  | .ok => true
  | .err tcode =>
    if tcode = "PGRST202" then
      match test with
      | .exn => false
      | .ok => true
      | .err code => code = "PGRST116" ∨ code = "42P01"
    else false

/-- Modelled from the spec: the set of error codes the specification says
the verifier classifies as "connection is fine". -/
def specVerifiedCodes : List String := ["PGRST202", "42P01", "PGRST116"]

/-- Modelled from the spec: a probe outcome that the claim counts as a
positive verification signal (a success, or an error whose code is in
`specVerifiedCodes`). -/
def specPositiveSignal (r : ProbeOutcome) : Bool :=
  match r with
  | .ok => true
  | .err c => specVerifiedCodes.contains c
  | .exn => false

/-! ## Project reference generator (src/app/lib/database/supabase.ts)

`generateProjectRef` sanitizes a free-form description, pads/truncates it to
a 20-character lowercase slug, and appends a hyphen plus an 8-character
`nanoid` suffix.  The `nanoid(8)` call is external randomness; it is passed
in as an argument (it always produces 8 characters).  JavaScript strings
are modelled as `List Char`. -/

/-- Character class kept by the sanitizer regex `[a-z0-9-]`. -/
def isAllowedRefChar (c : Char) : Bool :=
  ('a' ≤ c && c ≤ 'z') || ('0' ≤ c && c ≤ '9') || c == '-'

/-- Embedding of the global replacement of the regex "one or more hyphens"
by a single hyphen: collapse every run of hyphens. -/
def collapseHyphens : List Char → List Char
  | [] => []
  | [c] => [c]
  | c :: d :: rest =>
    if c == '-' && d == '-' then collapseHyphens (d :: rest)
    else c :: collapseHyphens (d :: rest)

/-- Drop the longest run of elements satisfying `p` from the end of a list
(used to model anchored trailing-run regex replacements and `trim`). -/
def dropEndWhile (p : Char → Bool) (l : List Char) : List Char :=
  (l.reverse.dropWhile p).reverse

/-- Embedding of `.replace(/^-+|-+$/g, '')`: strip the leading and trailing
hyphen runs. -/
def stripEdgeHyphens (l : List Char) : List Char :=
  dropEndWhile (· == '-') (l.dropWhile (· == '-'))

/-- Embedding of the sanitization pipeline of `generateProjectRef`:
lowercase, replace characters outside `[a-z0-9-]` with hyphens, collapse
hyphen runs, strip edge hyphens. -/
def sanitizeDescription (description : List Char) : List Char :=
  stripEdgeHyphens (collapseHyphens
    ((description.map Char.toLower).map
      (fun c => if isAllowedRefChar c then c else '-')))

/-- Embedding of `String.prototype.padEnd(n, c)`. -/
def padEndWith (l : List Char) (n : Nat) (c : Char) : List Char :=
  l ++ List.replicate (n - l.length) c

/-- Embedding of the slug construction of `generateProjectRef`: take the
first 20 sanitized characters and pad with `'a'` if shorter than 20. -/
def projectRefSlug (sanitized : List Char) : List Char :=
  if (sanitized.take 20).length < 20 then padEndWith (sanitized.take 20) 20 'a'
  else sanitized.take 20

/-- Candidate reference built by `generateProjectRef`: slug, hyphen,
`nanoid(8)` suffix. -/
def projectRefCandidate (description suffix : List Char) : List Char :=
  projectRefSlug (sanitizeDescription description) ++ ['-'] ++ suffix

/-- Embedding of `generateProjectRef` (identical in both variants of the
file): build the 20-character slug, append `-` and the `nanoid(8)` suffix,
and throw if the result is shorter than 20 characters. -/
def generateProjectRef (description suffix : List Char) :
    Except String (List Char) :=
  if (projectRefCandidate description suffix).length < 20 then
    .error "Generated project reference is too short"
  else .ok (projectRefCandidate description suffix)

/-! ## Generic string machinery

JavaScript string operations used by the code (substring containment,
`trim`, case-insensitive regex tests) are modelled as executable functions
on `List Char`, together with the lemmas connecting them to explicit
decompositions. -/

/-- Lowercasing of a JavaScript string. -/
def lowerList (l : List Char) : List Char := l.map Char.toLower

/-- Initial-segment test: `leadsWith pat l` holds when `l` starts with
`pat`. -/
def leadsWith : List Char → List Char → Bool
  | [], _ => true
  | _ :: _, [] => false
  | p :: ps, c :: cs => p == c && leadsWith ps cs

/-- Embedding of `String.prototype.includes(pat)`: occurrence of `pat`
anywhere in the string. -/
def containsList (pat : List Char) : List Char → Bool
  | [] => leadsWith pat []
  | c :: rest => leadsWith pat (c :: rest) || containsList pat rest

/-- Embedding of `String.prototype.trim()` (drop whitespace from both
ends). -/
def trimChars (l : List Char) : List Char :=
  dropEndWhile (fun c => c.isWhitespace) (l.dropWhile (fun c => c.isWhitespace))

/-! ## SQL sanitizer (src/app/lib/database/llm-supabase.ts)

`validateAndSanitizeQuery` trims the query, rejects empty queries, and
rejects queries matched by one of four case-insensitive denylist regexes;
comments and multiple statements are deliberately allowed.  The regexes are
embedded as executable pattern matchers: a pattern is a sequence of
case-insensitive literal characters and one-or-more-whitespace gaps. -/

/-- One token of a denylist regex: a literal character (stored lowercase,
matched case-insensitively) or a one-or-more-whitespace gap. -/
inductive RTok where
  | lit (c : Char) : RTok
  | wsPlus : RTok
deriving DecidableEq, Repr

/-- Literal-only pattern from a lowercase character list. -/
def litToks (s : List Char) : List RTok := s.map RTok.lit

/-- Match a pattern at the start of the subject (with backtracking for
whitespace gaps). -/
def matchHere : List RTok → List Char → Bool
  | [], _ => true
  | .lit _ :: _, [] => false
  | .lit c :: ps, d :: rest => d.toLower == c && matchHere ps rest
  | .wsPlus :: _, [] => false
  | .wsPlus :: ps, d :: rest =>
    d.isWhitespace && (matchHere ps rest || matchHere (.wsPlus :: ps) rest)

/-- Match a pattern anywhere in the subject, the embedding of
`RegExp.prototype.test` for the denylist patterns. -/
def scanPat (toks : List RTok) : List Char → Bool
  | [] => matchHere toks []
  | c :: rest => matchHere toks (c :: rest) || scanPat toks rest

/-- Denylist regex: `xp_cmdshell`, case-insensitive. -/
def patXpCmdshell : List RTok := litToks "xp_cmdshell".toList

/-- Denylist regex: `EXECUTE` whitespace `AS` whitespace `OWNER`,
case-insensitive. -/
def patExecuteAsOwner : List RTok :=
  litToks "execute".toList ++ [.wsPlus] ++ litToks "as".toList ++ [.wsPlus] ++
    litToks "owner".toList

/-- Denylist regex: `INTO` whitespace `OUTFILE`, case-insensitive. -/
def patIntoOutfile : List RTok :=
  litToks "into".toList ++ [.wsPlus] ++ litToks "outfile".toList

/-- Denylist regex: `LOAD_FILE`, case-insensitive. -/
def patLoadFile : List RTok := litToks "load_file".toList

/-- The `dangerousPatterns` array of `validateAndSanitizeQuery`; the
multiple-statement, line-comment and block-comment patterns are commented
out in the source and therefore absent here too. -/
def dangerousPatterns : List (List RTok) :=
  [patXpCmdshell, patExecuteAsOwner, patIntoOutfile, patLoadFile]

/-- Embedding of `validateAndSanitizeQuery`: reject empty-after-trim
queries, reject queries matching a denylist pattern, otherwise return the
trimmed query. -/
def validateAndSanitizeQuery (query : List Char) : Except String (List Char) :=
  if trimChars query = [] then .error "Query cannot be empty"
  else if dangerousPatterns.any (fun p => scanPat p (trimChars query)) then
    .error "Query contains potentially harmful patterns"
  else .ok (trimChars query)

/-! ## Project Provisioner polling loops

Two variants exist.  `pollProjectStatus` in
src/app/components/header/SupabaseConnectButton.tsx (ceiling 30, 10-second
interval) inspects the project `status` string; `pollProjectStatus` in
src/app/lib/database/management.ts (ceiling 180, 1-second interval)
inspects the per-service statuses only.  Each is embedded as a fuel
recursion over a stream of poll responses; the result pairs the loop
outcome with the number of polls performed. -/

/-- Observable outcome of one poll of the SupabaseConnectButton loop:
the iteration threw, got a non-ok HTTP response (with upstream status code
and parsed error message), got an ok response without a `data` field, or
got a project status string. -/
inductive PollResult where
  | thrown : PollResult
  | httpError (code : Nat) (msg : String) : PollResult
  | noData : PollResult
  | status (s : String) : PollResult
deriving DecidableEq, Repr

/-- Outcome of the SupabaseConnectButton loop: the promise resolves,
rejects with an error message, or the fuel is exhausted (unreachable with
the real ceiling as initial fuel). -/
inductive PollOutcome where
  | resolved : PollOutcome
  | rejected (msg : String) : PollOutcome
  | outOfFuel : PollOutcome
deriving DecidableEq, Repr

/-- Embedding of `checkStatus` in SupabaseConnectButton's
`pollProjectStatus`: `n` is the `attempts` counter (= polls performed so
far), the second component counts polls performed from this entry on.
`maxAttempts = 30`. -/
def checkStatusCB (res : Nat → PollResult) (ref : List Char) :
    Nat → Nat → PollOutcome × Nat
  | _, 0 => (.outOfFuel, 0)
  | n, fuel + 1 =>
    if ref.length < 20 then
      (.rejected "Invalid project reference. Project creation may have failed.", 0)
    else
      match res n with
      | .thrown =>
        if n + 1 ≥ 30 then (.rejected "Timed out waiting for project to be ready", 1)
        else
          let r := checkStatusCB res ref (n + 1) fuel
          (r.1, r.2 + 1)
      | .httpError code msg =>
        if n + 1 ≥ 30 then (.rejected "Timed out waiting for project to be ready", 1)
        else if code == 400 && containsList "ref must be longer".toList msg.toList then
          (.rejected "Invalid project reference. Project creation may have failed.", 1)
        else
          let r := checkStatusCB res ref (n + 1) fuel
          (r.1, r.2 + 1)
      | .noData =>
        if n + 1 ≥ 30 then (.rejected "Timed out waiting for project to be ready", 1)
        else
          let r := checkStatusCB res ref (n + 1) fuel
          (r.1, r.2 + 1)
      | .status s =>
        if s == "ACTIVE_HEALTHY" then (.resolved, 1)
        else if s == "ERROR_PROVISIONING" || s == "BUILDING_FAILED" ||
            s == "PROVISIONING_FAILED" then
          (.rejected ("Error during project creation: " ++ s), 1)
        else if n + 1 ≥ 30 then (.rejected "Timed out waiting for project to be ready", 1)
        else
          let r := checkStatusCB res ref (n + 1) fuel
          (r.1, r.2 + 1)

/-- Embedding of SupabaseConnectButton's `pollProjectStatus`: start with
`attempts = 0`; 30 units of fuel cover the 30-attempt ceiling. -/
def pollProjectStatusCB (res : Nat → PollResult) (ref : List Char) :
    PollOutcome × Nat :=
  checkStatusCB res ref 0 30

/-- A poll result on which the SupabaseConnectButton loop schedules another
poll (when below the ceiling): any retryable failure, or a status that is
neither success-terminal nor failure-terminal. -/
def cbContinuing (r : PollResult) : Bool :=
  match r with
  | .thrown => true
  | .noData => true
  | .httpError code msg =>
    !(code == 400 && containsList "ref must be longer".toList msg.toList)
  | .status s =>
    !(s == "ACTIVE_HEALTHY") &&
      !(s == "ERROR_PROVISIONING" || s == "BUILDING_FAILED" ||
        s == "PROVISIONING_FAILED")

/-- One service record of a `ProjectStatus` response (the `name` and
`status` fields; `statusMessage` is unused by the loop). -/
structure ServiceStatus where
  name : String
  status : String
deriving DecidableEq, Repr

/-- Observable outcome of one poll of the management.ts loop: a thrown
fetch, a non-ok HTTP response (whose parsed message is thrown and caught),
or an ok response carrying the project status string and the service
statuses (the `ref` and `api` fields of `ProjectStatus` are not consulted
by the loop and are omitted). -/
inductive MPollResult where
  | thrown (msg : String) : MPollResult
  | httpFail (msg : String) : MPollResult
  | ok (status : String) (services : List ServiceStatus) : MPollResult
deriving DecidableEq, Repr

/-- Outcome of the management.ts loop. -/
inductive MPollOutcome where
  | resolved (status : String) (services : List ServiceStatus) : MPollOutcome
  | rejected (msg : String) : MPollOutcome
  | outOfFuel : MPollOutcome
deriving DecidableEq, Repr

/-- Embedding of `poll` in management.ts's `pollProjectStatus`:
`MAX_POLL_ATTEMPTS = 180`; the loop resolves when every service is
`ACTIVE_HEALTHY`, rejects immediately on any thrown error (which includes
every non-ok HTTP response), and rejects with a timeout once the attempt
counter reaches the ceiling. -/
def pollM (res : Nat → MPollResult) : Nat → Nat → MPollOutcome × Nat
  | _, 0 => (.outOfFuel, 0)
  | n, fuel + 1 =>
    match res n with
    | .thrown m => (.rejected m, 1)
    | .httpFail m => (.rejected m, 1)
    | .ok st svcs =>
      if svcs.all (fun s => s.status == "ACTIVE_HEALTHY") then
        (.resolved st svcs, 1)
      else if n + 1 ≥ 180 then
        (.rejected "Timeout waiting for project to be ready after 180 attempts", 1)
      else
        let r := pollM res (n + 1) fuel
        (r.1, r.2 + 1)

/-- Embedding of management.ts's `pollProjectStatus`. -/
def pollProjectStatusM (res : Nat → MPollResult) : MPollOutcome × Nat :=
  pollM res 0 180

/-- A poll result on which the management.ts loop schedules another poll
(when below the ceiling): an ok response whose services are not all
healthy. -/
def mContinuing (r : MPollResult) : Bool :=
  match r with
  | .ok _ svcs => !(svcs.all (fun s => s.status == "ACTIVE_HEALTHY"))
  | _ => false

/-- Concrete inputs used by the witnesses below. -/
def refOk : List Char := List.replicate 20 'a'

/-- Status sequence BUILDING, PROVISIONING, COMING_UP, ACTIVE_HEALTHY. -/
def c2SeqCB : Nat → PollResult := fun n =>
  if n = 0 then .status "BUILDING"
  else if n = 1 then .status "PROVISIONING"
  else if n = 2 then .status "COMING_UP"
  else .status "ACTIVE_HEALTHY"

/-- One still-provisioning service. -/
def svcPending : List ServiceStatus := [⟨"db", "COMING_UP"⟩]

/-- One healthy service. -/
def svcReady : List ServiceStatus := [⟨"db", "ACTIVE_HEALTHY"⟩]

/-- Service lists matching the C2 status sequence. -/
def c2Svc : Nat → List ServiceStatus := fun n =>
  if n < 3 then svcPending else svcReady

/-- Management-loop responses matching the C2 status sequence. -/
def c2SeqM : Nat → MPollResult := fun n =>
  if n = 0 then .ok "BUILDING" svcPending
  else if n = 1 then .ok "PROVISIONING" svcPending
  else if n = 2 then .ok "COMING_UP" svcPending
  else .ok "ACTIVE_HEALTHY" svcReady

/-- A never-terminal response stream for each loop. -/
def c3SeqCB : Nat → PollResult := fun _ => .status "BUILDING"

/-- A never-terminal response stream for the management loop. -/
def c3SeqM : Nat → MPollResult := fun _ => .ok "BUILDING" svcPending

/-- A stream whose first response is the failure-terminal status
`ERROR_PROVISIONING` (with a failed service). -/
def c4SeqM : Nat → MPollResult := fun _ =>
  .ok "ERROR_PROVISIONING" [⟨"db", "FAILED"⟩]

/-- BUILDING, then ERROR_PROVISIONING. -/
def c4SeqCB : Nat → PollResult := fun n =>
  if n = 0 then .status "BUILDING" else .status "ERROR_PROVISIONING"

/-- A retryable HTTP failure, then success. -/
def c5SeqCB : Nat → PollResult := fun n =>
  if n = 0 then .httpError 500 "internal error" else .status "ACTIVE_HEALTHY"

/-- The fatal reference-length 400 error. -/
def c5RefSeq : Nat → PollResult := fun _ =>
  .httpError 400 "project ref must be longer than 3 characters"

/-- An HTTP failure observed by the management loop. -/
def c5SeqM : Nat → MPollResult := fun _ =>
  .httpFail "Failed to check project status"

/-! ## Operation Executors (src/app/lib/database/service.ts and
src/app/lib/database/llm-integration.ts)

Both files export an `executeDatabaseOperation` dispatching on the
operation kind, validating the required field set of each case before any
remote call, and converting every thrown error into an unsuccessful
response.  Remote calls are modelled by a stream `net : Nat → NetOutcome`
(call `i` of the execution receives outcome `net i`); the embedding
returns the response together with the number of remote calls performed.
Payloads are abstracted as row lists; the request-cache branch of
service.ts (`options.cache`, disabled by default and by every caller) is
not modelled. -/

/-- Operation kind (`type` in service.ts, `operation` in
llm-integration.ts). -/
inductive OpType where
  | select : OpType
  | insert : OpType
  | update : OpType
  | delete : OpType
  | execute : OpType
deriving DecidableEq, Repr

/-- The `DatabaseOperation` record of both files: `table`/`schema`/`query`
are strings, `filter` and `data` are objects (modelled as association
lists), `returning` is a column list.  A missing field is `none`. -/
structure DBOperation where
  type : OpType
  table : Option String
  schema : Option String
  query : Option String
  filter : Option (List (String × String))
  data : Option (List (String × String))
  returning : Option (List String)
deriving DecidableEq, Repr

/-- The stored `SupabaseConfig` (project URL and API key). -/
structure SupabaseConfig where
  projectUrl : String
  apiKey : String
deriving DecidableEq, Repr

/-- Outcome of one remote call: data rows, a PostgREST error object, or a
thrown exception carrying a message. -/
inductive NetOutcome where
  | ok (rows : List String) : NetOutcome
  | err (message : String) (details : Option String) (code : Option String) :
      NetOutcome
  | thrown (message : String) : NetOutcome
deriving DecidableEq, Repr

/-- The error object of service.ts's `DatabaseResponse`. -/
structure ErrInfo where
  message : String
  details : Option String
  code : Option String
deriving DecidableEq, Repr

/-- service.ts's `DatabaseResponse`. -/
structure DatabaseResponse where
  success : Bool
  data : Option (List String)
  error : Option ErrInfo
deriving DecidableEq, Repr

/-- JavaScript falsiness of an optional string field (missing or empty). -/
def isFalsyStr : Option String → Bool
  | none => true
  | some s => s == ""

/-- Embedding of `pgError.message || 'An unknown database error
occurred'`. -/
def msgOr (m : String) : String :=
  if m == "" then "An unknown database error occurred" else m

/-- Embedding of `x || undefined` on an optional string. -/
def truthyOr (s : Option String) : Option String :=
  match s with
  | some s => if s == "" then none else some s
  | none => none

/-- Response produced by service.ts's catch-all for a thrown `Error` with
message `msg` (no `details`, no `code`). -/
def errResp (msg : String) : DatabaseResponse :=
  ⟨false, none, some ⟨msgOr msg, none, none⟩⟩

/-- One query-builder call of service.ts (select/insert/update/delete):
an error result is thrown and lands in the catch-all. -/
def runQueryCall (net : Nat → NetOutcome) : DatabaseResponse × Nat :=
  match net 0 with
  | .ok rows => (⟨true, some rows, none⟩, 1)
  | .err m d co => (⟨false, none, some ⟨msgOr m, truthyOr d, truthyOr co⟩⟩, 1)
  | .thrown m => (errResp m, 1)

/-- Embedding of service.ts's `executeDatabaseOperation` (with
`options.cache` off): missing configuration short-circuits, each case
validates its required fields before its remote call, and the `execute`
case falls back from the `execute_sql` rpc to a direct REST call. -/
def executeDatabaseOperation (cfg : Option SupabaseConfig)
    (net : Nat → NetOutcome) (op : DBOperation) : DatabaseResponse × Nat :=
  match cfg with
  | none => (errResp "Supabase configuration not found", 0)
  | some c =>
    if c.projectUrl == "" || c.apiKey == "" then
      (⟨false, none,
        some ⟨"Supabase configuration not found", none, some "CONFIG_NOT_FOUND"⟩⟩, 0)
    else
      match op.type with
      | .select =>
        if isFalsyStr op.table then
          (errResp "Table name is required for select operations", 0)
        else runQueryCall net
      | .insert =>
        if isFalsyStr op.table || op.data.isNone then
          (errResp "Table name and data are required for insert operations", 0)
        else runQueryCall net
      | .update =>
        if isFalsyStr op.table || op.data.isNone || op.filter.isNone then
          (errResp "Table name, data, and filter are required for update operations", 0)
        else runQueryCall net
      | .delete =>
        if isFalsyStr op.table || op.filter.isNone then
          (errResp "Table name and filter are required for delete operations", 0)
        else runQueryCall net
      | .execute =>
        if isFalsyStr op.query then
          (errResp "SQL query is required for execute operations", 0)
        else
          match net 0 with
          | .ok rows => (⟨true, some rows, none⟩, 1)
          | _ =>
            match net 1 with
            | .ok rows => (⟨true, some rows, none⟩, 2)
            | _ => (errResp "Failed to execute SQL query using REST API", 2)

/-- String name of an operation kind (used in llm-integration.ts's
response metadata). -/
def opName : OpType → String
  | .select => "select"
  | .insert => "insert"
  | .update => "update"
  | .delete => "delete"
  | .execute => "execute"

/-- llm-integration.ts's `DatabaseResponse` (string error plus metadata). -/
structure LLMResponse where
  success : Bool
  data : Option (List String)
  error : Option String
  metaOp : String
  metaTable : Option String
  metaRowCount : Option Nat
deriving DecidableEq, Repr

/-- Failure response of llm-integration.ts's catch-all for a thrown
`Error` with message `msg`. -/
def llmFail (op : DBOperation) (msg : String) : LLMResponse :=
  ⟨false, none, some msg, opName op.type, op.table, none⟩

/-- One query call of llm-integration.ts (a `result.error` is thrown and
caught; thrown exceptions are modelled as `Error`s carrying a message). -/
def llmCall (op : DBOperation) (net : Nat → NetOutcome) : LLMResponse × Nat :=
  match net 0 with
  | .ok rows =>
    (⟨true, some rows, none, opName op.type, op.table, some rows.length⟩, 1)
  | .err m _ _ => (llmFail op m, 1)
  | .thrown m => (llmFail op m, 1)

/-- Embedding of llm-integration.ts's `executeDatabaseOperation` (its
operation record names the kind field `operation`; the dispatch and the
validation messages are as in the source). -/
def executeDatabaseOperationLLM (cfg : Option SupabaseConfig)
    (net : Nat → NetOutcome) (op : DBOperation) : LLMResponse × Nat :=
  match cfg with
  | none => (llmFail op "Supabase configuration not found", 0)
  | some _ =>
    match op.type with
    | .select =>
      if isFalsyStr op.table then
        (llmFail op "Table name is required for select operations", 0)
      else llmCall op net
    | .insert =>
      if isFalsyStr op.table || op.data.isNone then
        (llmFail op "Table name and data are required for insert operations", 0)
      else llmCall op net
    | .update =>
      if isFalsyStr op.table || op.data.isNone || op.filter.isNone then
        (llmFail op "Table name, data, and filter are required for update operations", 0)
      else llmCall op net
    | .delete =>
      if isFalsyStr op.table || op.filter.isNone then
        (llmFail op "Table name and filter are required for delete operations", 0)
      else llmCall op net
    | .execute =>
      if isFalsyStr op.query then
        (llmFail op "Query is required for execute operations", 0)
      else llmCall op net

/-- Concrete update operation with a missing filter. -/
def c6Op : DBOperation :=
  ⟨.update, some "users", none, none, none, some [("name", "x")], none⟩

/-- Concrete stored configuration. -/
def c6Cfg : SupabaseConfig := ⟨"https://proj.supabase.co", "anon-key"⟩

/-- A network stream witnessing that no call is made. -/
def c6Net : Nat → NetOutcome := fun _ => .thrown "network unreachable"

/-! ## Management-API proxy endpoint (src/app/routes/api.supabase.ts)

The `action` handler validates the request, forwards it to the upstream
management API, and translates the upstream response.  JSON values are
modelled by a small inductive; the upstream exchange is passed in as an
outcome (a status/body pair, or a thrown fetch/parse error). -/

/-- Minimal JSON value model. -/
inductive JVal where
  | jnull : JVal
  | jbool (b : Bool) : JVal
  | num (n : Int) : JVal
  | str (s : String) : JVal
  | arr (xs : List JVal) : JVal
  | obj (fields : List (String × JVal)) : JVal

/-- Field lookup on a JSON object (`undefined` otherwise). -/
def jlookup (k : String) : JVal → Option JVal
  | .obj fields => go fields
  | _ => none
where
  go : List (String × JVal) → Option JVal
    | [] => none
    | (k2, v) :: rest => if k2 == k then some v else go rest

/-- JavaScript truthiness of a JSON value. -/
def jTruthy : JVal → Bool
  | .jnull => false
  | .jbool b => b
  | .num n => !(n == 0)
  | .str s => !(s == "")
  | .arr _ => true
  | .obj _ => true

/-- Embedding of `responseData.message || 'Failed to communicate with
Supabase'`. -/
def messageOr (body : JVal) : JVal :=
  match jlookup "message" body with
  | some v =>
    if jTruthy v then v else .str "Failed to communicate with Supabase"
  | none => .str "Failed to communicate with Supabase"

/-- The parts of the incoming request the handler consults: the HTTP
method, the parsed JSON body fields `path` and `method` (`body` is
forwarded opaquely and omitted), and the management-key header. -/
structure ProxyRequest where
  httpMethod : String
  path : Option String
  key : Option String
deriving DecidableEq, Repr

/-- Outcome of the upstream fetch: a response with status and parsed JSON
body, or a thrown error (network failure or JSON parse failure). -/
inductive UpstreamOutcome where
  | resp (status : Nat) (body : JVal) : UpstreamOutcome
  | thrown (msg : String) : UpstreamOutcome

/-- Embedding of the `action` handler of api.supabase.ts (newer variant,
lines 70-121): returns the HTTP status and JSON body of the handler's
response.  On an ok upstream response the upstream body is returned as is
(via `json(responseData)`, status 200); on a non-ok response the handler
returns `{error: responseData.message || fallback}` with the upstream
status; thrown errors yield 500. -/
def action (req : ProxyRequest) (up : UpstreamOutcome) : Nat × JVal :=
  if req.httpMethod ≠ "POST" then
    (405, .obj [("error", .str "Method not allowed")])
  else if isFalsyStr req.path then
    (400, .obj [("error", .str "Path is required")])
  else if isFalsyStr req.key then
    (401, .obj [("error", .str "Management key is required")])
  else
    match up with
    | .thrown m => (500, .obj [("error", .str m)])
    | .resp status body =>
      if 200 ≤ status ∧ status < 300 then (200, body)
      else (status, .obj [("error", messageOr body)])

/-- Concrete valid proxy request. -/
def c9Req : ProxyRequest := ⟨"POST", some "/projects", some "sbp-key"⟩

/-- Concrete 2xx upstream body (an empty project list). -/
def c9Body : JVal := .arr []

/-! ## CREATE TABLE generator (src/app/lib/database/schema.ts)

`generateTableSQL` (the `TableDefinition` variant, lines 167-215) renders a
table definition into a SQL script: a documentation comment, the
`CREATE TABLE IF NOT EXISTS` clause, an optional RLS statement and policy
statements.  Strings are modelled as `List Char` throughout this section.
The round-trip claim compares the rendered clause, parsed back, with the
input definition; the parser of the clause is modelled from the spec
(the repository itself ships no SQL parser). -/

/-- Split a character list at every occurrence of `c` (the result always
has one more element than the number of occurrences). -/
def splitOnChar (c : Char) : List Char → List (List Char)
  | [] => [[]]
  | d :: rest =>
    match splitOnChar c rest with
    | [] => [[]]
    | cur :: others =>
      if d == c then [] :: cur :: others else (d :: cur) :: others

/-- Embedding of `Array.prototype.join(sep)`. -/
def joinSep (sep : List Char) : List (List Char) → List Char
  | [] => []
  | [l] => l
  | l :: rest => l ++ sep ++ joinSep sep rest

/-- Character list of a string literal (JavaScript template chunks). -/
def strLit (s : String) : List Char := s.toList

/-- The 18 column types admitted by the zod `TableSchema`. -/
inductive ColType where
  | text : ColType
  | varchar : ColType
  | char : ColType
  | int2 : ColType
  | int4 : ColType
  | int8 : ColType
  | float4 : ColType
  | float8 : ColType
  | bool : ColType
  | date : ColType
  | time : ColType
  | timetz : ColType
  | timestamp : ColType
  | timestamptz : ColType
  | interval : ColType
  | uuid : ColType
  | json : ColType
  | jsonb : ColType
deriving DecidableEq, Repr

/-- Rendered name of a column type. -/
def colTypeName : ColType → List Char
  | .text => strLit "text"
  | .varchar => strLit "varchar"
  | .char => strLit "char"
  | .int2 => strLit "int2"
  | .int4 => strLit "int4"
  | .int8 => strLit "int8"
  | .float4 => strLit "float4"
  | .float8 => strLit "float8"
  | .bool => strLit "bool"
  | .date => strLit "date"
  | .time => strLit "time"
  | .timetz => strLit "timetz"
  | .timestamp => strLit "timestamp"
  | .timestamptz => strLit "timestamptz"
  | .interval => strLit "interval"
  | .uuid => strLit "uuid"
  | .json => strLit "json"
  | .jsonb => strLit "jsonb"

/-- The `onDelete` enum of a column reference. -/
inductive OnDeleteAction where
  | noAction : OnDeleteAction
  | restrict : OnDeleteAction
  | cascade : OnDeleteAction
  | setNull : OnDeleteAction
  | setDefault : OnDeleteAction
deriving DecidableEq, Repr

/-- Rendered name of an `onDelete` action. -/
def onDeleteName : OnDeleteAction → List Char
  | .noAction => strLit "NO ACTION"
  | .restrict => strLit "RESTRICT"
  | .cascade => strLit "CASCADE"
  | .setNull => strLit "SET NULL"
  | .setDefault => strLit "SET DEFAULT"

/-- The `references` object of a column. -/
structure ColRef where
  table : List Char
  column : List Char
  onDelete : OnDeleteAction
deriving DecidableEq, Repr

/-- One column of a `TableDefinition`. -/
structure ColumnDef where
  name : List Char
  type : ColType
  nullable : Bool
  unique : Bool
  primaryKey : Bool
  defaultValue : Option (List Char)
  references : Option ColRef
deriving DecidableEq, Repr

/-- Policy action enum. -/
inductive PolicyAction where
  | select : PolicyAction
  | insert : PolicyAction
  | update : PolicyAction
  | delete : PolicyAction
deriving DecidableEq, Repr

/-- Rendered name of a policy action. -/
def policyActionName : PolicyAction → List Char
  | .select => strLit "SELECT"
  | .insert => strLit "INSERT"
  | .update => strLit "UPDATE"
  | .delete => strLit "DELETE"

/-- Policy role enum. -/
inductive PolicyRole where
  | authenticated : PolicyRole
  | anon : PolicyRole
  | serviceRole : PolicyRole
deriving DecidableEq, Repr

/-- Rendered name of a policy role. -/
def policyRoleName : PolicyRole → List Char
  | .authenticated => strLit "authenticated"
  | .anon => strLit "anon"
  | .serviceRole => strLit "service_role"

/-- One RLS policy (the source names its condition field `using`, a Lean
keyword, rendered here as `usingExpr`). -/
structure Policy where
  name : List Char
  action : PolicyAction
  role : PolicyRole
  usingExpr : List Char
  check : Option (List Char)
deriving DecidableEq, Repr

/-- The `TableDefinition` record validated by the zod schema. -/
structure TableDefinition where
  name : List Char
  columns : List ColumnDef
  enableRLS : Bool
  policies : List Policy
deriving DecidableEq, Repr

/-- The zod identifier regex for table and column names: a lowercase
letter followed by lowercase letters, digits and underscores. -/
def validIdent (s : List Char) : Bool :=
  match s with
  | [] => false
  | c :: rest => c.isLower && rest.all (fun d => d.isLower || d.isDigit || d == '_')

/-- One rendered column definition of the CREATE TABLE body. -/
def columnSQL (col : ColumnDef) : List Char :=
  col.name ++ strLit " " ++ colTypeName col.type
    ++ (if col.primaryKey then strLit " PRIMARY KEY" else [])
    ++ (if !col.nullable then strLit " NOT NULL" else [])
    ++ (if col.unique then strLit " UNIQUE" else [])
    ++ (match col.defaultValue with
        | some d => if d.isEmpty then [] else strLit " DEFAULT " ++ d
        | none => [])
    ++ (match col.references with
        | some r =>
          strLit " REFERENCES " ++ r.table ++ strLit "(" ++ r.column ++ strLit ")"
            ++ (if r.onDelete ≠ .noAction then
                  strLit " ON DELETE " ++ onDeleteName r.onDelete
                else [])
        | none => [])

/-- One column line of the documentation comment. -/
def commentColLine (col : ColumnDef) : List Char :=
  strLit "      - " ++ col.name ++ strLit " (" ++ colTypeName col.type
    ++ (if col.nullable then strLit ", nullable" else [])
    ++ (if col.unique then strLit ", unique" else [])
    ++ (if col.primaryKey then strLit ", primary key" else [])
    ++ strLit ")"

/-- One policy line of the documentation comment. -/
def commentPolicyLine (p : Policy) : List Char :=
  strLit "      - " ++ p.name ++ strLit " (" ++ policyActionName p.action
    ++ strLit " for " ++ policyRoleName p.role ++ strLit ")"

/-- One rendered CREATE POLICY statement. -/
def policySQL (tname : List Char) (p : Policy) : List Char :=
  strLit "\nCREATE POLICY \"" ++ p.name ++ strLit "\"\n  ON " ++ tname
    ++ strLit "\n  FOR " ++ policyActionName p.action
    ++ strLit "\n  TO " ++ policyRoleName p.role
    ++ strLit "\n  USING (" ++ p.usingExpr ++ strLit ")"
    ++ (match p.check with
        | some ch => strLit "\n  WITH CHECK (" ++ ch ++ strLit ")"
        | none => [])
    ++ strLit ";"

/-- JavaScript rendering of a boolean in a template literal. -/
def boolLit (b : Bool) : List Char :=
  if b then strLit "true" else strLit "false"

/-- Embedding of `generateTableSQL` (schema.ts, `TableDefinition` variant,
lines 167-215), following the template literal chunk by chunk. -/
def generateTableSQL (t : TableDefinition) : List Char :=
  strLit "/*\n  # Create " ++ t.name
    ++ strLit " table\n  \n  1. New Tables\n    - " ++ t.name ++ strLit "\n"
    ++ joinSep (strLit "\n") (t.columns.map commentColLine)
    ++ strLit "\n  \n  2. Security\n    - Enable RLS: " ++ boolLit t.enableRLS
    ++ strLit "\n    - Policies:\n"
    ++ joinSep (strLit "\n") (t.policies.map commentPolicyLine)
    ++ strLit "\n*/\n\nCREATE TABLE IF NOT EXISTS " ++ t.name ++ strLit " (\n  "
    ++ joinSep (strLit ",\n  ") (t.columns.map columnSQL)
    ++ strLit "\n);\n\n"
    ++ (if t.enableRLS then
          strLit "\nALTER TABLE " ++ t.name ++ strLit " ENABLE ROW LEVEL SECURITY;"
        else [])
    ++ strLit "\n\n"
    ++ joinSep (strLit "\n") (t.policies.map (policySQL t.name))
    ++ strLit "\n"

/-! ### Parser of the CREATE TABLE clause

Modelled from the spec: "parsing the produced SQL's CREATE TABLE clause
yields the column name/type/nullability set".  The parser splits the
script into lines, finds the first `CREATE TABLE IF NOT EXISTS` line,
reads the table name from it, and reads one column per body line up to the
closing `);` line: the first token is the column name, the second its
type, and the column is nullable exactly when no adjacent `NOT NULL`
token pair occurs.  The repository ships no SQL parser of its own. -/

/-- Marker opening the clause. -/
def createMarker : List Char := strLit "CREATE TABLE IF NOT EXISTS "

/-- Strip the trailing " (" of the CREATE TABLE line, exposing the table
name. -/
def stripParenEnd (l : List Char) : Option (List Char) :=
  match l.reverse with
  | '(' :: ' ' :: rest => some rest.reverse
  | _ => none

/-- Strip one trailing comma (the column separator) when present. -/
def stripComma (l : List Char) : List Char :=
  match l.reverse with
  | ',' :: rest => rest.reverse
  | _ => l

/-- Adjacent `NOT` `NULL` token pair. -/
def hasNotNullToks : List (List Char) → Bool
  | a :: b :: rest =>
    (a == strLit "NOT" && b == strLit "NULL") || hasNotNullToks (b :: rest)
  | _ => false

/-- Parse one column line into (name, type, nullable). -/
def parseColLine (line : List Char) : List Char × List Char × Bool :=
  let d := stripComma (line.drop 2)
  let toks := splitOnChar ' ' d
  (toks.getD 0 [], toks.getD 1 [], !hasNotNullToks toks)

/-- Collect column lines up to the closing `);` line. -/
def collectDefs :
    List (List Char) → Option (List (List Char × List Char × Bool))
  | [] => none
  | l :: rest =>
    if l == strLit ");" then some []
    else
      match collectDefs rest with
      | some ds => some (parseColLine l :: ds)
      | none => none

/-- Find the CREATE TABLE line and parse the clause. -/
def findCreate :
    List (List Char) → Option (List Char × List (List Char × List Char × Bool))
  | [] => none
  | l :: rest =>
    if leadsWith createMarker l then
      match stripParenEnd (l.drop createMarker.length) with
      | some tname =>
        match collectDefs rest with
        | some ds => some (tname, ds)
        | none => none
      | none => none
    else findCreate rest

/-- Parse the CREATE TABLE clause out of a rendered SQL script. -/
def parseCreateTable (sql : List Char) :
    Option (List Char × List (List Char × List Char × Bool)) :=
  findCreate (splitOnChar '\n' sql)

/-- The (name, type, nullability) triple of an input column, the data the
round-trip claim compares. -/
def columnTriple (c : ColumnDef) : List Char × List Char × Bool :=
  (c.name, colTypeName c.type, c.nullable)

/-- A table definition that is valid for the zod schema (`defaultValue`
is an arbitrary string there) but whose default value smuggles a
`NOT NULL` constraint into the rendered column. -/
def c8BadTable : TableDefinition :=
  ⟨strLit "users",
    [⟨strLit "flag", .int4, true, false, false, some (strLit "0 NOT NULL"),
      none⟩],
    false, []⟩

/-! ### Token structure of a rendered column definition -/

/-- A segment that is empty or starts with a space (every optional piece
of a rendered column definition). -/
def spaceLed (S : List Char) : Prop := S = [] ∨ ∃ R, S = ' ' :: R

/-- Tokens contributed by a space-led segment. -/
def splitTail : List Char → List (List Char)
  | [] => []
  | c :: R => if c == ' ' then splitOnChar ' ' R else splitOnChar ' ' (c :: R)

/-- Tokens of a rendered `onDelete` action. -/
def odToks : OnDeleteAction → List (List Char)
  | .noAction => [strLit "NO", strLit "ACTION"]
  | .restrict => [strLit "RESTRICT"]
  | .cascade => [strLit "CASCADE"]
  | .setNull => [strLit "SET", strLit "NULL"]
  | .setDefault => [strLit "SET", strLit "DEFAULT"]

/-- Tokens contributed by the PRIMARY KEY flag. -/
def pkChunk (b : Bool) : List (List Char) :=
  if b then [strLit "PRIMARY", strLit "KEY"] else []

/-- Tokens contributed by the NOT NULL constraint (argument: `!nullable`). -/
def nnChunk (b : Bool) : List (List Char) :=
  if b then [strLit "NOT", strLit "NULL"] else []

/-- Tokens contributed by the UNIQUE flag. -/
def uqChunk (b : Bool) : List (List Char) :=
  if b then [strLit "UNIQUE"] else []

/-- Tokens contributed by the default value. -/
def dfChunk (dvOpt : Option (List Char)) : List (List Char) :=
  match dvOpt with
  | some d => if d.isEmpty then [] else strLit "DEFAULT" :: splitOnChar ' ' d
  | none => []

/-- Tokens contributed by the reference clause. -/
def refChunk (refOpt : Option ColRef) : List (List Char) :=
  match refOpt with
  | some r =>
    [strLit "REFERENCES", r.table ++ strLit "(" ++ r.column ++ strLit ")"]
      ++ (if r.onDelete ≠ .noAction then
            strLit "ON" :: strLit "DELETE" :: odToks r.onDelete
          else [])
  | none => []

/-- The expected token list of a rendered column definition. -/
def colToks (c : ColumnDef) : List (List Char) :=
  [c.name, colTypeName c.type]
    ++ pkChunk c.primaryKey ++ nnChunk (!c.nullable) ++ uqChunk c.unique
    ++ dfChunk c.defaultValue ++ refChunk c.references

/-! ### Line structure of the rendered script -/

/-- Lines of the script's documentation comment segment for policies (the
join of zero policy lines leaves one empty line). -/
def polCommentSeg (ps : List Policy) : List (List Char) :=
  match ps with
  | [] => [[]]
  | _ => ps.map commentPolicyLine

/-- All lines of the script before the CREATE TABLE line. -/
def headLines (t : TableDefinition) : List (List Char) :=
  [strLit "/*",
   strLit "  # Create " ++ t.name ++ strLit " table",
   strLit "  ",
   strLit "  1. New Tables",
   strLit "    - " ++ t.name]
  ++ t.columns.map commentColLine
  ++ [strLit "  ",
      strLit "  2. Security",
      strLit "    - Enable RLS: " ++ boolLit t.enableRLS,
      strLit "    - Policies:"]
  ++ polCommentSeg t.policies
  ++ [strLit "*/", []]

/-- The CREATE TABLE line. -/
def createLine (t : TableDefinition) : List Char :=
  strLit "CREATE TABLE IF NOT EXISTS " ++ t.name ++ strLit " ("

/-- The body lines of the clause: one indented line per column definition,
comma-terminated except for the last. -/
def bodyLines : List (List Char) → List (List Char)
  | [] => [strLit "  "]
  | [d] => [strLit "  " ++ d]
  | d :: rest => (strLit "  " ++ d ++ strLit ",") :: bodyLines rest

/-- Everything after the newline that follows the `);` line. -/
def tailAfter (t : TableDefinition) : List Char :=
  strLit "\n"
    ++ (if t.enableRLS then
          strLit "\nALTER TABLE " ++ t.name ++ strLit " ENABLE ROW LEVEL SECURITY;"
        else [])
    ++ strLit "\n\n"
    ++ joinSep (strLit "\n") (t.policies.map (policySQL t.name))
    ++ strLit "\n"

/-- All lines up to and including the `);` line. -/
def preLines (t : TableDefinition) : List (List Char) :=
  headLines t ++ createLine t :: bodyLines (t.columns.map columnSQL)
    ++ [strLit ");"]

/-- Parsed triples of the body lines, mirrored on the shape of
`bodyLines`. -/
def parsedLines : List (List Char) → List (List Char × List Char × Bool)
  | [] => [parseColLine (strLit "  ")]
  | [d] => [parseColLine (strLit "  " ++ d)]
  | d :: rest => parseColLine (strLit "  " ++ d ++ strLit ",") :: parsedLines rest

/-- The fixed initial segment of a rendered column (everything up to the
UNIQUE flag). -/
def coreSeg (c : ColumnDef) : List Char :=
  c.name ++ strLit " " ++ colTypeName c.type
    ++ (if c.primaryKey then strLit " PRIMARY KEY" else [])
    ++ (if !c.nullable then strLit " NOT NULL" else [])
    ++ (if c.unique then strLit " UNIQUE" else [])

/-- The DEFAULT segment of a rendered column. -/
def dfSeg (dvOpt : Option (List Char)) : List Char :=
  match dvOpt with
  | some d => if d.isEmpty then [] else strLit " DEFAULT " ++ d
  | none => []

/-- The REFERENCES segment of a rendered column. -/
def refSeg (refOpt : Option ColRef) : List Char :=
  match refOpt with
  | some r =>
    strLit " REFERENCES " ++ r.table ++ strLit "(" ++ r.column ++ strLit ")"
      ++ (if r.onDelete ≠ .noAction then
            strLit " ON DELETE " ++ onDeleteName r.onDelete
          else [])
  | none => []

/-- The well-behavedness conditions the amended round-trip claim imposes
on one column: the zod identifier regex on the name, and, for the fields
zod leaves as free strings, no newline, no smuggled NOT NULL, no trailing
comma in the default value, and identifier-shaped reference names. -/
def colOk (c : ColumnDef) : Prop :=
  validIdent c.name = true ∧
  (∀ d, c.defaultValue = some d →
    containsList (strLit "NOT NULL") d = false ∧ '\n' ∉ d ∧
      d.getLast? ≠ some ',') ∧
  (∀ r, c.references = some r →
    validIdent r.table = true ∧ validIdent r.column = true)

/-- A table definition exercising the amended round-trip: four columns
with primary key, unique flag, a benign default value and a reference
with ON DELETE CASCADE, RLS enabled and one policy. -/
def c8GoodTable : TableDefinition :=
  ⟨strLit "users",
    [⟨strLit "id", .uuid, false, false, true, none, none⟩,
     ⟨strLit "email", .text, false, true, false, none, none⟩,
     ⟨strLit "age", .int4, true, false, false, some (strLit "0"), none⟩,
     ⟨strLit "team", .int8, true, false, false, none,
       some ⟨strLit "teams", strLit "id", .cascade⟩⟩],
    true,
    [⟨strLit "users_read", .select, .authenticated, strLit "true", none⟩]⟩

/-! ## Theorems -/

/-- C1 counterexample: when the very first probe errors with code `42P01`
("relation does not exist", which the claim places in the verified set) and
the remaining probes error with a transport code, the verifier returns
`false`, although the claim says any probe producing a code in
{PGRST202, 42P01, PGRST116} yields `true`.  (The older variant likewise
returns `false` on a first-probe `42P01`.) -/
theorem C1_counterexample :
    verifySupabaseConnection (.err "42P01") (.err "08006") (.err "08006") = false ∧
    specPositiveSignal (.err "42P01") = true ∧
    verifySupabaseConnectionV1 (.err "42P01") (.err "42P01") = false := by
  decide

/-- C1 (amended): the verifier never throws (it is a total Boolean function
of the probe outcomes, thrown probes included) and returns `true` exactly
when the ordered probe chain reaches a probe whose own acceptance set
matches: probe 1 accepts success or `PGRST202`; probe 2 (reached only on a
non-`PGRST202` probe-1 error) accepts success, `PGRST116` or `42P01`;
probe 3 (reached only on a probe-2 error outside that set) accepts only
error `42P01`.  In the older variant: probe 1 accepts success, and a
`PGRST202` error leads to probe 2, which accepts success, `PGRST116` or
`42P01`; everything else, thrown probes included, yields `false`. -/
theorem C1_theorem :
    (∀ v s f : ProbeOutcome,
      verifySupabaseConnection v s f = true ↔
        ((v = .ok ∨ v = .err "PGRST202") ∨
          (∃ cv, v = .err cv ∧ cv ≠ "PGRST202" ∧
            ((s = .ok ∨ s = .err "PGRST116" ∨ s = .err "42P01") ∨
              (∃ cs, s = .err cs ∧ cs ≠ "PGRST116" ∧ cs ≠ "42P01" ∧
                f = .err "42P01"))))) ∧
    (∀ t u : ProbeOutcome,
      verifySupabaseConnectionV1 t u = true ↔
        (t = .ok ∨ (t = .err "PGRST202" ∧
          (u = .ok ∨ u = .err "PGRST116" ∨ u = .err "42P01")))) := by
  constructor
  · intro v s f
    cases v with
    | ok => simp [verifySupabaseConnection]
    | exn => simp [verifySupabaseConnection]
    | err cv =>
      by_cases hv : cv = "PGRST202"
      · subst hv; simp [verifySupabaseConnection]
      · cases s with
        | ok => simp [verifySupabaseConnection, hv]
        | exn => simp [verifySupabaseConnection, hv]
        | err cs =>
          by_cases hs1 : cs = "PGRST116"
          · subst hs1; simp [verifySupabaseConnection, hv]
          · by_cases hs2 : cs = "42P01"
            · subst hs2; simp [verifySupabaseConnection, hv]
            · cases f with
              | ok => simp [verifySupabaseConnection, hv, hs1, hs2]
              | exn => simp [verifySupabaseConnection, hv, hs1, hs2]
              | err cf => simp [verifySupabaseConnection, hv, hs1, hs2]
  · intro t u
    cases t with
    | ok => simp [verifySupabaseConnectionV1]
    | exn => simp [verifySupabaseConnectionV1]
    | err ct =>
      by_cases ht : ct = "PGRST202"
      · subst ht
        cases u with
        | ok => simp [verifySupabaseConnectionV1]
        | exn => simp [verifySupabaseConnectionV1]
        | err cu => simp [verifySupabaseConnectionV1]
      · simp [verifySupabaseConnectionV1, ht]

/-- C1 witness: the amended characterization evaluated at concrete probe
outcomes (a fresh project answering `PGRST202` to the version rpc is
verified). -/
theorem C1_theorem_witness :
    verifySupabaseConnection (.err "PGRST202") .exn .exn = true := by
  exact (C1_theorem.1 (.err "PGRST202") .exn .exn).mpr (Or.inl (Or.inr rfl))

/-- The slug always has exactly 20 characters. -/
theorem projectRefSlug_length (l : List Char) : (projectRefSlug l).length = 20 := by
  have h := List.length_take_le 20 l
  unfold projectRefSlug
  split
  · simp [padEndWith]
  · omega

/-- C10: for every description (empty or not) and every 8-character
`nanoid` suffix, `generateProjectRef` succeeds with a reference of exactly
20 + 1 + 8 = 29 characters, so the "Generated project reference is too
short" branch is unreachable. -/
theorem C10_theorem (description suffix : List Char)
    (hsuffix : suffix.length = 8) :
    ∃ ref, generateProjectRef description suffix = .ok ref ∧
      ref.length = 29 := by
  have hcand : (projectRefCandidate description suffix).length = 29 := by
    simp [projectRefCandidate, projectRefSlug_length, hsuffix]
  refine ⟨projectRefCandidate description suffix, ?_, hcand⟩
  unfold generateProjectRef
  rw [if_neg (by omega)]

/-- C10 witness: a concrete description full of invalid characters and a
concrete 8-character suffix produce a 29-character reference. -/
theorem C10_theorem_witness :
    ∃ ref,
      generateProjectRef "My App!!".toList "V1StGXR8".toList = .ok ref ∧
        ref.length = 29 := by
  exact C10_theorem "My App!!".toList "V1StGXR8".toList (by decide)

theorem leadsWith_iff (pat l : List Char) :
    leadsWith pat l = true ↔ ∃ t, l = pat ++ t := by
  induction pat generalizing l with
  | nil => simp [leadsWith]
  | cons p ps ih =>
    cases l with
    | nil => simp [leadsWith]
    | cons c cs =>
      simp only [leadsWith, Bool.and_eq_true, beq_iff_eq, ih,
        List.cons_append, List.cons.injEq]
      constructor
      · rintro ⟨h1, t, h2⟩
        exact ⟨t, h1.symm, h2⟩
      · rintro ⟨t, h1, h2⟩
        exact ⟨h1.symm, t, h2⟩

theorem containsList_iff (pat l : List Char) :
    containsList pat l = true ↔ ∃ a b, l = a ++ pat ++ b := by
  induction l with
  | nil =>
    simp only [containsList, leadsWith_iff]
    constructor
    · rintro ⟨t, ht⟩
      exact ⟨[], t, by simpa using ht⟩
    · rintro ⟨a, b, hab⟩
      have := hab.symm
      rw [List.append_assoc] at this
      rcases List.append_eq_nil.mp this with ⟨ha, hb⟩
      exact ⟨b, by simp [ha, hb]⟩
  | cons c rest ih =>
    simp only [containsList, Bool.or_eq_true, leadsWith_iff, ih]
    constructor
    · rintro (⟨t, ht⟩ | ⟨a, b, hab⟩)
      · exact ⟨[], t, by simpa using ht⟩
      · exact ⟨c :: a, b, by simp [hab]⟩
    · rintro ⟨a, b, hab⟩
      cases a with
      | nil => exact Or.inl ⟨b, by simpa using hab⟩
      | cons x a =>
        right
        rw [List.cons_append, List.cons_append] at hab
        injection hab with h1 h2
        exact ⟨a, b, h2⟩

/-- Whitespace characters are untouched by `Char.toLower`. -/
theorem toLower_of_isWhitespace {c : Char} (h : c.isWhitespace = true) :
    c.toLower = c := by
  simp only [Char.isWhitespace, Bool.or_eq_true, decide_eq_true_eq] at h
  rcases h with ((h | h) | h) | h <;> subst h <;> decide

/-- If the lowercasing of `c` lands in a whitespace-free list, `c` itself
is not whitespace. -/
theorem isWhitespace_false_of_toLower_mem {pat : List Char}
    (hpat : pat.all (fun x => !x.isWhitespace) = true) {c : Char}
    (hc : c.toLower ∈ pat) : c.isWhitespace = false := by
  by_cases h : c.isWhitespace = true
  · rw [toLower_of_isWhitespace h] at hc
    have := List.all_eq_true.mp hpat _ hc
    simp [h] at this
  · simpa using h

/-- `dropWhile` never crosses an element on which the predicate fails: the
tail from that element on survives. -/
theorem dropWhile_append_cons (p : Char → Bool) (a0 : List Char) (d : Char)
    (t : List Char) (hd : p d = false) :
    ∃ a1, List.dropWhile p (a0 ++ d :: t) = a1 ++ d :: t := by
  induction a0 with
  | nil => exact ⟨[], by simp [List.dropWhile_cons, hd]⟩
  | cons x a0 ih =>
    by_cases hx : p x = true
    · obtain ⟨a1, h1⟩ := ih
      exact ⟨a1, by simp [List.dropWhile_cons, hx, h1]⟩
    · exact ⟨x :: a0, by simp [List.dropWhile_cons, hx]⟩

/-- `dropEndWhile` analog of `dropWhile_append_cons`. -/
theorem dropEndWhile_append_decomp (p : Char → Bool) (a p0 b : List Char)
    (hne : p0 ≠ []) (hp0 : ∀ c ∈ p0, p c = false) :
    ∃ b1, dropEndWhile p (a ++ p0 ++ b) = a ++ p0 ++ b1 := by
  obtain ⟨d2, t2, hrev⟩ : ∃ d2 t2, p0.reverse = d2 :: t2 := by
    cases h : p0.reverse with
    | nil => exact absurd (by simpa using congrArg List.reverse h) hne
    | cons d2 t2 => exact ⟨d2, t2, rfl⟩
  have hd2 : p d2 = false := by
    apply hp0
    have : d2 ∈ p0.reverse := by rw [hrev]; exact List.mem_cons_self _ _
    simpa using this
  obtain ⟨b1, hb1⟩ :=
    dropWhile_append_cons p b.reverse d2 (t2 ++ a.reverse) hd2
  refine ⟨b1.reverse, ?_⟩
  unfold dropEndWhile
  have hrw : (a ++ p0 ++ b).reverse = b.reverse ++ d2 :: (t2 ++ a.reverse) := by
    simp only [List.reverse_append, hrev]
    simp
  rw [hrw, hb1]
  have hp0eq : p0 = t2.reverse ++ [d2] := by
    have := congrArg List.reverse hrev
    simpa using this
  rw [hp0eq]
  simp

/-- A nonempty whitespace-free segment survives `trimChars` on both sides. -/
theorem trimChars_decomp (a0 p0 b0 : List Char) (hne : p0 ≠ [])
    (hnw : ∀ c ∈ p0, c.isWhitespace = false) :
    ∃ a2 b2, trimChars (a0 ++ p0 ++ b0) = a2 ++ p0 ++ b2 := by
  obtain ⟨d, t, rfl⟩ : ∃ d t, p0 = d :: t := by
    cases p0 with
    | nil => exact absurd rfl hne
    | cons d t => exact ⟨d, t, rfl⟩
  obtain ⟨a1, h1⟩ :=
    dropWhile_append_cons (fun c => c.isWhitespace) a0 d (t ++ b0)
      (hnw d (List.mem_cons_self _ _))
  have h1' : List.dropWhile (fun c => c.isWhitespace) (a0 ++ (d :: t) ++ b0) =
      a1 ++ (d :: t) ++ b0 := by
    simpa using h1
  obtain ⟨b2, h2⟩ :=
    dropEndWhile_append_decomp (fun c => c.isWhitespace) a1 (d :: t) b0 hne hnw
  exact ⟨a1, b2, by rw [trimChars, h1', h2]⟩

/-- `trimChars l` sits inside `l`. -/
theorem trimChars_inside (l : List Char) :
    ∃ a b, l = a ++ trimChars l ++ b := by
  have ha := List.takeWhile_append_dropWhile (fun c => c.isWhitespace) l
  have ht := List.takeWhile_append_dropWhile (fun c => c.isWhitespace)
    (List.dropWhile (fun c => c.isWhitespace) l).reverse
  refine ⟨List.takeWhile (fun c => c.isWhitespace) l,
    (List.takeWhile (fun c => c.isWhitespace)
      (List.dropWhile (fun c => c.isWhitespace) l).reverse).reverse, ?_⟩
  have h2 := congrArg List.reverse ht
  simp only [List.reverse_append, List.reverse_reverse] at h2
  rw [trimChars, dropEndWhile]
  rw [List.append_assoc, h2]
  exact ha.symm

theorem scanPat_iff (toks : List RTok) (l : List Char) :
    scanPat toks l = true ↔ ∃ u v, l = u ++ v ∧ matchHere toks v = true := by
  induction l with
  | nil =>
    simp only [scanPat]
    constructor
    · intro h
      exact ⟨[], [], rfl, h⟩
    · rintro ⟨u, v, huv, hm⟩
      rcases List.append_eq_nil.mp huv.symm with ⟨hu, hv⟩
      rw [hv] at hm
      exact hm
  | cons c rest ih =>
    simp only [scanPat, Bool.or_eq_true, ih]
    constructor
    · rintro (h | ⟨u, v, huv, hm⟩)
      · exact ⟨[], c :: rest, rfl, h⟩
      · exact ⟨c :: u, v, by simp [huv], hm⟩
    · rintro ⟨u, v, huv, hm⟩
      cases u with
      | nil =>
        simp only [List.nil_append] at huv
        exact Or.inl (huv.symm ▸ hm)
      | cons x u =>
        right
        rw [List.cons_append] at huv
        injection huv with h1 h2
        exact ⟨u, v, h2, hm⟩

/-- Extending the subject to the right preserves a match at the start. -/
theorem matchHere_append {m : List Char} {toks : List RTok} {b : List Char}
    (h : matchHere toks m = true) : matchHere toks (m ++ b) = true := by
  induction m generalizing toks with
  | nil =>
    cases toks with
    | nil => simp [matchHere]
    | cons p ps =>
      cases p with
      | lit c => simp [matchHere] at h
      | wsPlus => simp [matchHere] at h
  | cons d rest ih =>
    cases toks with
    | nil => simp [matchHere]
    | cons p ps =>
      cases p with
      | lit c =>
        simp only [matchHere, Bool.and_eq_true] at h ⊢
        exact ⟨h.1, ih h.2⟩
      | wsPlus =>
        simp only [matchHere, Bool.and_eq_true, Bool.or_eq_true] at h ⊢
        refine ⟨h.1, ?_⟩
        rcases h.2 with h2 | h2
        · exact Or.inl (ih h2)
        · exact Or.inr (ih h2)

/-- A match inside a segment lifts to any surrounding string. -/
theorem scanPat_of_inside {toks : List RTok} {m : List Char}
    (h : scanPat toks m = true) (a b : List Char) :
    scanPat toks (a ++ m ++ b) = true := by
  obtain ⟨u, v, huv, hm⟩ := (scanPat_iff toks m).mp h
  refine (scanPat_iff toks (a ++ m ++ b)).mpr ⟨a ++ u, v ++ b, ?_, matchHere_append hm⟩
  rw [huv]
  simp

/-- Literal patterns match a segment whose lowercasing is the pattern. -/
theorem matchHere_litToks (pat : List Char) :
    ∀ p0 rest : List Char, lowerList p0 = pat →
      matchHere (litToks pat) (p0 ++ rest) = true := by
  induction pat with
  | nil => intro p0 rest h; simp [litToks, matchHere]
  | cons c ct ih =>
    intro p0 rest h
    cases p0 with
    | nil => simp [lowerList] at h
    | cons d dt =>
      simp only [lowerList, List.map_cons, List.cons.injEq] at h
      obtain ⟨h1, h2⟩ := h
      simp only [litToks, List.map_cons, List.cons_append, matchHere,
        Bool.and_eq_true, beq_iff_eq]
      exact ⟨h1, ih dt rest h2⟩

/-- A case-insensitive occurrence of a nonempty whitespace-free literal
pattern in the raw query yields a match in the trimmed query. -/
theorem scanPat_trim_of_contains (pat : List Char) (hne : pat ≠ [])
    (hnp : pat.all (fun x => !x.isWhitespace) = true) (q : List Char)
    (h : containsList pat (lowerList q) = true) :
    scanPat (litToks pat) (trimChars q) = true := by
  obtain ⟨a, b, hab⟩ := (containsList_iff _ _).mp h
  rw [lowerList, List.append_assoc] at hab
  obtain ⟨a0, rest, hq, ha0, hrest⟩ := List.map_eq_append_iff.mp hab
  obtain ⟨p0, b0, hrest2, hp0, hb0⟩ := List.map_eq_append_iff.mp hrest
  have hqd : q = a0 ++ p0 ++ b0 := by rw [hq, hrest2, List.append_assoc]
  have hp0ne : p0 ≠ [] := by
    intro h0
    rw [h0] at hp0
    exact hne (by simpa using hp0.symm)
  have hp0nw : ∀ c ∈ p0, c.isWhitespace = false := by
    intro c hc
    apply isWhitespace_false_of_toLower_mem hnp
    rw [← hp0]
    exact List.mem_map_of_mem _ hc
  obtain ⟨a2, b2, htrim⟩ := trimChars_decomp a0 p0 b0 hp0ne hp0nw
  rw [hqd, htrim, List.append_assoc]
  refine (scanPat_iff _ _).mpr ⟨a2, p0 ++ b2, rfl, ?_⟩
  exact matchHere_litToks pat p0 b2 hp0

/-- The trimmed query is nonempty whenever the raw query contains a
nonempty whitespace-free segment. -/
theorem trimChars_ne_nil_of_contains (pat : List Char) (hne : pat ≠ [])
    (hnw : ∀ c ∈ pat, c.isWhitespace = false) (q : List Char)
    (h : containsList pat q = true) : trimChars q ≠ [] := by
  obtain ⟨a, b, hab⟩ := (containsList_iff _ _).mp h
  obtain ⟨a2, b2, htrim⟩ := trimChars_decomp a pat b hne hnw
  rw [hab, htrim]
  intro h0
  rcases List.append_eq_nil.mp h0 with ⟨h1, _⟩
  rcases List.append_eq_nil.mp h1 with ⟨_, h2⟩
  exact hne h2

/-- C7: (a) every query containing `xp_cmdshell` case-insensitively is
rejected with the harmful-pattern error; (b) every query containing a `--`
comment or a `;` statement separator on which none of the four denylist
patterns matches is accepted (the trimmed query is returned). -/
theorem C7_theorem :
    (∀ q : List Char,
      containsList "xp_cmdshell".toList (lowerList q) = true →
      validateAndSanitizeQuery q =
        .error "Query contains potentially harmful patterns") ∧
    (∀ q : List Char,
      (containsList "--".toList q = true ∨ containsList ";".toList q = true) →
      (∀ p ∈ dangerousPatterns, scanPat p q = false) →
      validateAndSanitizeQuery q = .ok (trimChars q)) := by
  constructor
  · intro q h
    have hscan : scanPat patXpCmdshell (trimChars q) = true :=
      scanPat_trim_of_contains "xp_cmdshell".toList (by decide) (by decide) q h
    have htne : trimChars q ≠ [] := by
      intro h0
      rw [h0] at hscan
      exact absurd hscan (by decide)
    rw [validateAndSanitizeQuery, if_neg htne, if_pos]
    simp only [dangerousPatterns, List.any_cons, hscan, Bool.true_or]
  · intro q hcont hnone
    have htne : trimChars q ≠ [] := by
      rcases hcont with h | h
      · exact trimChars_ne_nil_of_contains "--".toList (by decide) (by decide) q h
      · exact trimChars_ne_nil_of_contains ";".toList (by decide) (by decide) q h
    have hnone2 : ∀ p ∈ dangerousPatterns, scanPat p (trimChars q) = false := by
      intro p hp
      by_cases h : scanPat p (trimChars q) = true
      · obtain ⟨a, b, hq⟩ := trimChars_inside q
        have := scanPat_of_inside h a b
        rw [← hq] at this
        rw [hnone p hp] at this
        exact absurd this (by simp)
      · simpa using h
    have hany : (dangerousPatterns.any fun p => scanPat p (trimChars q)) = false := by
      rw [List.any_eq_false]
      intro p hp
      simp [hnone2 p hp]
    rw [validateAndSanitizeQuery, if_neg htne, if_neg (by simp [hany])]

/-- C7 witness: a query with an uppercased `xp_cmdshell` occurrence is
rejected; a two-statement query with a line comment is accepted verbatim
(it is already trimmed). -/
theorem C7_theorem_witness :
    validateAndSanitizeQuery "EXEC xP_CMDSHELL(dir)".toList =
      .error "Query contains potentially harmful patterns" ∧
    validateAndSanitizeQuery
        "CREATE TABLE a (x int); -- bootstrap\nCREATE TABLE b (y int);".toList =
      .ok (trimChars
        "CREATE TABLE a (x int); -- bootstrap\nCREATE TABLE b (y int);".toList) := by
  constructor
  · exact C7_theorem.1 _ (by decide)
  · exact C7_theorem.2 _ (Or.inl (by decide)) (by decide)

/-! ### Stepping lemmas for the SupabaseConnectButton loop -/

theorem checkStatusCB_step (res : Nat → PollResult) (ref : List Char)
    (n fuel : Nat) (href : ¬ ref.length < 20) (hn : n + 1 < 30)
    (hc : cbContinuing (res n) = true) :
    checkStatusCB res ref n (fuel + 1) =
      ((checkStatusCB res ref (n + 1) fuel).1,
        (checkStatusCB res ref (n + 1) fuel).2 + 1) := by
  cases hr : res n with
  | thrown =>
    simp only [checkStatusCB, hr, if_neg href]
    rw [if_neg (by omega)]
  | noData =>
    simp only [checkStatusCB, hr, if_neg href]
    rw [if_neg (by omega)]
  | httpError code msg =>
    have hb : (code == 400 &&
        containsList "ref must be longer".toList msg.toList) = false := by
      have h2 := hc
      rw [hr] at h2
      simp only [cbContinuing, Bool.not_eq_true'] at h2
      exact h2
    simp only [checkStatusCB, hr, if_neg href]
    rw [if_neg (by omega), if_neg (by rw [hb]; exact Bool.false_ne_true)]
  | status s =>
    have h2 := hc
    rw [hr] at h2
    simp only [cbContinuing, Bool.and_eq_true, Bool.not_eq_true',
      Bool.or_eq_false_iff] at h2
    simp only [checkStatusCB, hr, if_neg href]
    rw [if_neg (by simp [h2.1]), if_neg (by simp [h2.2.1, h2.2.2]),
      if_neg (by omega)]

theorem checkStatusCB_run (res : Nat → PollResult) (ref : List Char)
    (href : ¬ ref.length < 20) :
    ∀ (k n fuel : Nat), (∀ i, i < k → cbContinuing (res (n + i)) = true) →
      n + k < 30 →
      checkStatusCB res ref n (fuel + k) =
        ((checkStatusCB res ref (n + k) fuel).1,
          (checkStatusCB res ref (n + k) fuel).2 + k)
  | 0, n, fuel, _, _ => by simp
  | k + 1, n, fuel, hc, hceil => by
    have h0 : cbContinuing (res n) = true := by simpa using hc 0 (by omega)
    have hstep := checkStatusCB_step res ref n (fuel + k) href (by omega) h0
    have hc2 : ∀ i, i < k → cbContinuing (res (n + 1 + i)) = true := by
      intro i hi
      have h3 := hc (i + 1) (by omega)
      rw [show n + (i + 1) = n + 1 + i from by omega] at h3
      exact h3
    have hrec := checkStatusCB_run res ref href k (n + 1) fuel hc2 (by omega)
    show checkStatusCB res ref n (fuel + k + 1) = _
    rw [hstep, hrec]
    rw [show n + 1 + k = n + (k + 1) from by omega]
    rfl

theorem checkStatusCB_resolve (res : Nat → PollResult) (ref : List Char)
    (n fuel : Nat) (href : ¬ ref.length < 20)
    (h : res n = .status "ACTIVE_HEALTHY") :
    checkStatusCB res ref n (fuel + 1) = (.resolved, 1) := by
  simp [checkStatusCB, h, if_neg href]

theorem checkStatusCB_failStatus (res : Nat → PollResult) (ref : List Char)
    (n fuel : Nat) (href : ¬ ref.length < 20) (s : String)
    (h : res n = .status s)
    (hs : s = "ERROR_PROVISIONING" ∨ s = "BUILDING_FAILED" ∨
      s = "PROVISIONING_FAILED") :
    checkStatusCB res ref n (fuel + 1) =
      (.rejected ("Error during project creation: " ++ s), 1) := by
  have hne : (s == "ACTIVE_HEALTHY") = false := by
    rcases hs with h1 | h1 | h1 <;> subst h1 <;> decide
  have hfail : (s == "ERROR_PROVISIONING" || s == "BUILDING_FAILED" ||
      s == "PROVISIONING_FAILED") = true := by
    rcases hs with h1 | h1 | h1 <;> subst h1 <;> decide
  simp only [checkStatusCB, h, if_neg href]
  rw [if_neg (by simp [hne]), if_pos (by simp_all)]

theorem checkStatusCB_ceiling (res : Nat → PollResult) (ref : List Char)
    (n fuel : Nat) (href : ¬ ref.length < 20) (hn : n + 1 ≥ 30)
    (hc : cbContinuing (res n) = true) :
    checkStatusCB res ref n (fuel + 1) =
      (.rejected "Timed out waiting for project to be ready", 1) := by
  cases hr : res n with
  | thrown =>
    simp only [checkStatusCB, hr, if_neg href]
    rw [if_pos (by omega)]
  | noData =>
    simp only [checkStatusCB, hr, if_neg href]
    rw [if_pos (by omega)]
  | httpError code msg =>
    simp only [checkStatusCB, hr, if_neg href]
    rw [if_pos (by omega)]
  | status s =>
    have h2 := hc
    rw [hr] at h2
    simp only [cbContinuing, Bool.and_eq_true, Bool.not_eq_true',
      Bool.or_eq_false_iff] at h2
    simp only [checkStatusCB, hr, if_neg href]
    rw [if_neg (by simp [h2.1]), if_neg (by simp [h2.2.1, h2.2.2]),
      if_pos (by omega)]

theorem checkStatusCB_ref400 (res : Nat → PollResult) (ref : List Char)
    (n fuel : Nat) (href : ¬ ref.length < 20) (hn : n + 1 < 30)
    (code : Nat) (msg : String) (h : res n = .httpError code msg)
    (hcode : code = 400)
    (hmsg : containsList "ref must be longer".toList msg.toList = true) :
    checkStatusCB res ref n (fuel + 1) =
      (.rejected "Invalid project reference. Project creation may have failed.", 1) := by
  subst hcode
  simp only [checkStatusCB, h, if_neg href]
  rw [if_neg (by omega), if_pos (by rw [hmsg]; rfl)]

theorem checkStatusCB_polls_pos (res : Nat → PollResult) (ref : List Char)
    (href : ¬ ref.length < 20) (n fuel : Nat) (hfuel : 0 < fuel) :
    1 ≤ (checkStatusCB res ref n fuel).2 := by
  cases fuel with
  | zero => omega
  | succ fuel =>
    cases hr : res n with
    | thrown =>
      simp only [checkStatusCB, hr, if_neg href]
      split <;> simp
    | noData =>
      simp only [checkStatusCB, hr, if_neg href]
      split <;> simp
    | httpError code msg =>
      simp only [checkStatusCB, hr, if_neg href]
      split
      · simp
      · split <;> simp
    | status s =>
      simp only [checkStatusCB, hr, if_neg href]
      split
      · simp
      · split
        · simp
        · split <;> simp

/-! ### Stepping lemmas for the management.ts loop -/

theorem pollM_step (res : Nat → MPollResult) (n fuel : Nat)
    (hn : n + 1 < 180) (hc : mContinuing (res n) = true) :
    pollM res n (fuel + 1) =
      ((pollM res (n + 1) fuel).1, (pollM res (n + 1) fuel).2 + 1) := by
  cases hr : res n with
  | thrown m => rw [hr] at hc; simp [mContinuing] at hc
  | httpFail m => rw [hr] at hc; simp [mContinuing] at hc
  | ok st svcs =>
    have h2 := hc
    rw [hr] at h2
    simp only [mContinuing, Bool.not_eq_true'] at h2
    simp only [pollM, hr]
    rw [if_neg (by simp [h2]), if_neg (by omega)]

theorem pollM_run (res : Nat → MPollResult) :
    ∀ (k n fuel : Nat), (∀ i, i < k → mContinuing (res (n + i)) = true) →
      n + k < 180 →
      pollM res n (fuel + k) =
        ((pollM res (n + k) fuel).1, (pollM res (n + k) fuel).2 + k)
  | 0, n, fuel, _, _ => by simp
  | k + 1, n, fuel, hc, hceil => by
    have h0 : mContinuing (res n) = true := by simpa using hc 0 (by omega)
    have hstep := pollM_step res n (fuel + k) (by omega) h0
    have hc2 : ∀ i, i < k → mContinuing (res (n + 1 + i)) = true := by
      intro i hi
      have h3 := hc (i + 1) (by omega)
      rw [show n + (i + 1) = n + 1 + i from by omega] at h3
      exact h3
    have hrec := pollM_run res k (n + 1) fuel hc2 (by omega)
    show pollM res n (fuel + k + 1) = _
    rw [hstep, hrec]
    rw [show n + 1 + k = n + (k + 1) from by omega]
    rfl

theorem pollM_resolve (res : Nat → MPollResult) (n fuel : Nat)
    (st : String) (svcs : List ServiceStatus) (h : res n = .ok st svcs)
    (hall : svcs.all (fun s => s.status == "ACTIVE_HEALTHY") = true) :
    pollM res n (fuel + 1) = (.resolved st svcs, 1) := by
  simp [pollM, h, hall]

theorem pollM_reject (res : Nat → MPollResult) (n fuel : Nat) (m : String)
    (h : res n = .httpFail m ∨ res n = .thrown m) :
    pollM res n (fuel + 1) = (.rejected m, 1) := by
  rcases h with h | h <;> simp [pollM, h]

theorem pollM_ceiling (res : Nat → MPollResult) (n fuel : Nat)
    (hn : n + 1 ≥ 180) (hc : mContinuing (res n) = true) :
    pollM res n (fuel + 1) =
      (.rejected "Timeout waiting for project to be ready after 180 attempts", 1) := by
  cases hr : res n with
  | thrown m => rw [hr] at hc; simp [mContinuing] at hc
  | httpFail m => rw [hr] at hc; simp [mContinuing] at hc
  | ok st svcs =>
    have h2 := hc
    rw [hr] at h2
    simp only [mContinuing, Bool.not_eq_true'] at h2
    simp only [pollM, hr]
    rw [if_neg (by simp [h2]), if_pos (by omega)]

/-- The management loop polls to the timeout whenever every response is an
ok response with not-all-healthy services. -/
theorem pollM_timeout_of_continuing (res : Nat → MPollResult)
    (hc : ∀ i, mContinuing (res i) = true) :
    pollProjectStatusM res =
      (.rejected "Timeout waiting for project to be ready after 180 attempts", 180) := by
  have hrun := pollM_run res 179 0 1 (fun i _ => hc (0 + i)) (by omega)
  have hend := pollM_ceiling res 179 0 (by omega) (hc 179)
  rw [pollProjectStatusM, show (180 : Nat) = 1 + 179 from rfl, hrun]
  rw [show (1 : Nat) = 0 + 1 from rfl, hend]

/-- C2: given the status sequence BUILDING, PROVISIONING, COMING_UP,
ACTIVE_HEALTHY (for the management variant: responses whose services match
those statuses, pending for the first three and all healthy on the
fourth), both loops resolve successfully after exactly 4 polls and poll no
further. -/
theorem C2_theorem (res : Nat → PollResult) (ref : List Char)
    (href : ¬ ref.length < 20)
    (h0 : res 0 = .status "BUILDING") (h1 : res 1 = .status "PROVISIONING")
    (h2 : res 2 = .status "COMING_UP")
    (h3 : res 3 = .status "ACTIVE_HEALTHY")
    (resM : Nat → MPollResult) (sv : Nat → List ServiceStatus)
    (hm0 : resM 0 = .ok "BUILDING" (sv 0))
    (hm1 : resM 1 = .ok "PROVISIONING" (sv 1))
    (hm2 : resM 2 = .ok "COMING_UP" (sv 2))
    (hm3 : resM 3 = .ok "ACTIVE_HEALTHY" (sv 3))
    (hsv : ∀ i, i < 3 → (sv i).all (fun s => s.status == "ACTIVE_HEALTHY") = false)
    (hsv3 : (sv 3).all (fun s => s.status == "ACTIVE_HEALTHY") = true) :
    pollProjectStatusCB res ref = (.resolved, 4) ∧
    pollProjectStatusM resM = (.resolved "ACTIVE_HEALTHY" (sv 3), 4) := by
  constructor
  · have hcont : ∀ i, i < 3 → cbContinuing (res (0 + i)) = true := by
      intro i hi
      interval_cases i <;> simp [cbContinuing, h0, h1, h2]
    have hrun := checkStatusCB_run res ref href 3 0 27 hcont (by omega)
    have hend := checkStatusCB_resolve res ref 3 26 href h3
    rw [pollProjectStatusCB, show (30 : Nat) = 27 + 3 from rfl, hrun]
    rw [show (27 : Nat) = 26 + 1 from rfl, hend]
  · have hcont : ∀ i, i < 3 → mContinuing (resM (0 + i)) = true := by
      intro i hi
      interval_cases i <;>
        simp [mContinuing, hm0, hm1, hm2, hsv 0 (by omega), hsv 1 (by omega),
          hsv 2 (by omega)]
    have hrun := pollM_run resM 3 0 177 hcont (by omega)
    have hend := pollM_resolve resM 3 176 "ACTIVE_HEALTHY" (sv 3) hm3 hsv3
    rw [pollProjectStatusM, show (180 : Nat) = 177 + 3 from rfl, hrun]
    rw [show (177 : Nat) = 176 + 1 from rfl, hend]

/-- C2 witness: the concrete four-status sequences resolve after exactly
4 polls in both loops. -/
theorem C2_theorem_witness :
    pollProjectStatusCB c2SeqCB refOk = (.resolved, 4) ∧
    pollProjectStatusM c2SeqM = (.resolved "ACTIVE_HEALTHY" svcReady, 4) := by
  have h := C2_theorem c2SeqCB refOk (by decide) rfl rfl rfl rfl
    c2SeqM c2Svc rfl rfl rfl rfl (by decide) (by decide)
  exact h

/-- C3: when no poll ever returns a terminal state (for the
SupabaseConnectButton loop: every response is a non-terminal status; for
the management loop: every response is ok with not-all-healthy services),
each loop rejects with its timeout error after exactly its attempt ceiling
of polls (30 resp. 180), hence never exceeds ceiling + 1 polls. -/
theorem C3_theorem (res : Nat → PollResult) (ref : List Char)
    (href : ¬ ref.length < 20)
    (hcb : ∀ i, ∃ s, res i = .status s ∧ s ≠ "ACTIVE_HEALTHY" ∧
      s ≠ "ERROR_PROVISIONING" ∧ s ≠ "BUILDING_FAILED" ∧
      s ≠ "PROVISIONING_FAILED")
    (resM : Nat → MPollResult)
    (hm : ∀ i, ∃ st svcs, resM i = .ok st svcs ∧
      svcs.all (fun s => s.status == "ACTIVE_HEALTHY") = false) :
    pollProjectStatusCB res ref =
      (.rejected "Timed out waiting for project to be ready", 30) ∧
    pollProjectStatusM resM =
      (.rejected "Timeout waiting for project to be ready after 180 attempts", 180) := by
  have hcont : ∀ i, cbContinuing (res i) = true := by
    intro i
    obtain ⟨s, hs, hs1, hs2, hs3, hs4⟩ := hcb i
    simp [cbContinuing, hs, hs1, hs2, hs3, hs4]
  have hcontM : ∀ i, mContinuing (resM i) = true := by
    intro i
    obtain ⟨st, svcs, hs, hall⟩ := hm i
    simp [mContinuing, hs, hall]
  constructor
  · have hrun := checkStatusCB_run res ref href 29 0 1
      (fun i _ => hcont (0 + i)) (by omega)
    have hend := checkStatusCB_ceiling res ref 29 0 href (by omega) (hcont 29)
    rw [pollProjectStatusCB, show (30 : Nat) = 1 + 29 from rfl, hrun]
    rw [show (1 : Nat) = 0 + 1 from rfl, hend]
  · exact pollM_timeout_of_continuing resM hcontM

/-- C3 witness: the constant BUILDING streams time out after exactly 30
resp. 180 polls. -/
theorem C3_theorem_witness :
    pollProjectStatusCB c3SeqCB refOk =
      (.rejected "Timed out waiting for project to be ready", 30) ∧
    pollProjectStatusM c3SeqM =
      (.rejected "Timeout waiting for project to be ready after 180 attempts", 180) := by
  exact C3_theorem c3SeqCB refOk (by decide)
    (fun i => ⟨"BUILDING", rfl, by decide, by decide, by decide, by decide⟩)
    c3SeqM (fun i => ⟨"BUILDING", svcPending, rfl, by decide⟩)

/-- C4 counterexample: the management.ts loop, given a first poll whose
project status is the failure-terminal `ERROR_PROVISIONING` (with a failed
service), does not reject on that poll; it keeps polling until the
180-attempt timeout, because it never inspects the status field. -/
theorem C4_counterexample :
    c4SeqM 0 = .ok "ERROR_PROVISIONING" [⟨"db", "FAILED"⟩] ∧
    pollProjectStatusM c4SeqM =
      (.rejected "Timeout waiting for project to be ready after 180 attempts", 180) ∧
    ¬ (pollProjectStatusM c4SeqM).2 = 1 := by
  have h := pollM_timeout_of_continuing c4SeqM (fun _ => rfl)
  exact ⟨rfl, h, by rw [h]; decide⟩

/-- C4 (amended): in the SupabaseConnectButton loop, whenever a poll
returns a failure-terminal status (ERROR_PROVISIONING, BUILDING_FAILED or
PROVISIONING_FAILED), the loop rejects on that same poll with the
descriptive error, without waiting for the ceiling and without scheduling
another poll; the management.ts loop instead ignores the status field
entirely and, as long as responses are ok with not-all-healthy services
(failure statuses included), polls on to its 180-attempt timeout. -/
theorem C4_theorem :
    (∀ (res : Nat → PollResult) (ref : List Char), ¬ ref.length < 20 →
      ∀ (k : Nat) (s : String), k < 30 →
        (∀ i, i < k → cbContinuing (res i) = true) →
        res k = .status s →
        (s = "ERROR_PROVISIONING" ∨ s = "BUILDING_FAILED" ∨
          s = "PROVISIONING_FAILED") →
        pollProjectStatusCB res ref =
          (.rejected ("Error during project creation: " ++ s), k + 1)) ∧
    (∀ resM : Nat → MPollResult, (∀ i, mContinuing (resM i) = true) →
      pollProjectStatusM resM =
        (.rejected "Timeout waiting for project to be ready after 180 attempts", 180)) := by
  constructor
  · intro res ref href k s hk hcont hres hs
    have hrun := checkStatusCB_run res ref href k 0 (30 - k)
      (fun i hi => by simpa using hcont i hi) (by omega)
    have hend := checkStatusCB_failStatus res ref k (29 - k) href s hres hs
    rw [pollProjectStatusCB, show (30 : Nat) = (30 - k) + k from by omega, hrun,
      Nat.zero_add, show (30 - k : Nat) = (29 - k) + 1 from by omega, hend]
    simp [Nat.add_comm]
  · intro resM hc
    exact pollM_timeout_of_continuing resM hc

/-- C4 witness: a BUILDING poll followed by ERROR_PROVISIONING makes the
SupabaseConnectButton loop reject after exactly 2 polls, while the
management loop with a constant ERROR_PROVISIONING response times out
after 180. -/
theorem C4_theorem_witness :
    pollProjectStatusCB c4SeqCB refOk =
      (.rejected ("Error during project creation: " ++ "ERROR_PROVISIONING"), 2) ∧
    pollProjectStatusM c4SeqM =
      (.rejected "Timeout waiting for project to be ready after 180 attempts", 180) := by
  constructor
  · exact C4_theorem.1 c4SeqCB refOk (by decide) 1 "ERROR_PROVISIONING"
      (by omega) (fun i hi => by interval_cases i; decide) rfl (Or.inl rfl)
  · exact C4_theorem.2 c4SeqM (fun _ => rfl)

/-- C5 counterexample: the management.ts loop treats an HTTP failure
(non-ok response, whose parsed message is thrown and caught) as terminal:
given such a failure on the very first poll, the loop rejects after
exactly 1 poll instead of retrying. -/
theorem C5_counterexample :
    c5SeqM 0 = .httpFail "Failed to check project status" ∧
    pollProjectStatusM c5SeqM =
      (.rejected "Failed to check project status", 1) := by
  exact ⟨rfl, by decide⟩

/-- C5 (amended): in the SupabaseConnectButton loop, every HTTP failure
below the attempt ceiling is retried on the next interval (another poll is
performed) except the 400 response whose message contains "ref must be
longer", which rejects immediately without another poll; the management.ts
loop, by contrast, rejects immediately on every HTTP failure or thrown
fetch. -/
theorem C5_theorem :
    (∀ (res : Nat → PollResult) (ref : List Char), ¬ ref.length < 20 →
      ∀ (k code : Nat) (msg : String), k + 1 < 30 →
        (∀ i, i < k → cbContinuing (res i) = true) →
        res k = .httpError code msg →
        cbContinuing (res k) = true →
        2 + k ≤ (pollProjectStatusCB res ref).2) ∧
    (∀ (res : Nat → PollResult) (ref : List Char), ¬ ref.length < 20 →
      ∀ (k : Nat) (msg : String), k + 1 < 30 →
        (∀ i, i < k → cbContinuing (res i) = true) →
        res k = .httpError 400 msg →
        containsList "ref must be longer".toList msg.toList = true →
        pollProjectStatusCB res ref =
          (.rejected "Invalid project reference. Project creation may have failed.",
            k + 1)) ∧
    (∀ (resM : Nat → MPollResult) (k : Nat) (m : String), k < 180 →
      (∀ i, i < k → mContinuing (resM i) = true) →
      (resM k = .httpFail m ∨ resM k = .thrown m) →
      pollProjectStatusM resM = (.rejected m, k + 1)) := by
  refine ⟨?_, ?_, ?_⟩
  · intro res ref href k code msg hk hcont hres hcr
    have hrun := checkStatusCB_run res ref href k 0 (30 - k)
      (fun i hi => by simpa using hcont i hi) (by omega)
    have hstep := checkStatusCB_step res ref k (30 - k - 1) href (by omega) hcr
    have hpos := checkStatusCB_polls_pos res ref href (k + 1) (30 - k - 1)
      (by omega)
    rw [pollProjectStatusCB, show (30 : Nat) = (30 - k) + k from by omega, hrun,
      Nat.zero_add, show (30 - k : Nat) = (30 - k - 1) + 1 from by omega, hstep]
    simp only []
    omega
  · intro res ref href k msg hk hcont hres hmsg
    have hrun := checkStatusCB_run res ref href k 0 (30 - k)
      (fun i hi => by simpa using hcont i hi) (by omega)
    have hend := checkStatusCB_ref400 res ref k (30 - k - 1) href (by omega)
      400 msg hres rfl hmsg
    rw [pollProjectStatusCB, show (30 : Nat) = (30 - k) + k from by omega, hrun,
      Nat.zero_add, show (30 - k : Nat) = (30 - k - 1) + 1 from by omega, hend]
    simp [Nat.add_comm]
  · intro resM k m hk hcont hres
    have hrun := pollM_run resM k 0 (180 - k)
      (fun i hi => by simpa using hcont i hi) (by omega)
    have hend := pollM_reject resM k (180 - k - 1) m hres
    rw [pollProjectStatusM, show (180 : Nat) = (180 - k) + k from by omega, hrun,
      Nat.zero_add, show (180 - k : Nat) = (180 - k - 1) + 1 from by omega, hend]
    simp [Nat.add_comm]

/-- C5 witness: a 500 on the first poll is followed by a second poll; a
ref-length 400 on the first poll rejects after exactly 1 poll; an HTTP
failure on the first management poll rejects after exactly 1 poll. -/
theorem C5_theorem_witness :
    2 ≤ (pollProjectStatusCB c5SeqCB refOk).2 ∧
    pollProjectStatusCB c5RefSeq refOk =
      (.rejected "Invalid project reference. Project creation may have failed.", 1) ∧
    pollProjectStatusM c5SeqM = (.rejected "Failed to check project status", 1) := by
  refine ⟨?_, ?_, ?_⟩
  · have h := C5_theorem.1 c5SeqCB refOk (by decide) 0 500 "internal error"
      (by omega) (fun i hi => absurd hi (by omega)) rfl (by decide)
    simpa using h
  · exact C5_theorem.2.1 c5RefSeq refOk (by decide) 0
      "project ref must be longer than 3 characters" (by omega)
      (fun i hi => absurd hi (by omega)) rfl (by decide)
  · exact C5_theorem.2.2 c5SeqM 0 "Failed to check project status" (by omega)
      (fun i hi => absurd hi (by omega)) (Or.inl rfl)

/-- C6: an `update` operation missing its `filter` (or its `table` or
`data`) makes both executors return an unsuccessful response carrying the
descriptive validation message, with zero remote calls issued. -/
theorem C6_theorem (cfg : SupabaseConfig) (net : Nat → NetOutcome)
    (op : DBOperation) (hty : op.type = .update)
    (hmiss : op.filter = none ∨ isFalsyStr op.table = true ∨ op.data = none)
    (hurl : cfg.projectUrl ≠ "") (hkey : cfg.apiKey ≠ "") :
    executeDatabaseOperation (some cfg) net op =
      (errResp "Table name, data, and filter are required for update operations", 0) ∧
    executeDatabaseOperationLLM (some cfg) net op =
      (llmFail op "Table name, data, and filter are required for update operations", 0) := by
  have hcond : (isFalsyStr op.table || op.data.isNone || op.filter.isNone) = true := by
    rcases hmiss with h | h | h <;> simp [h, Option.isNone]
  have hcfg : (cfg.projectUrl == "" || cfg.apiKey == "") = false := by
    simp only [Bool.or_eq_false_iff, beq_eq_false_iff_ne, ne_eq]
    exact ⟨hurl, hkey⟩
  constructor
  · rw [executeDatabaseOperation, if_neg (by rw [hcfg]; exact Bool.false_ne_true),
      hty]
    rw [if_pos hcond]
  · rw [executeDatabaseOperationLLM, hty]
    rw [if_pos hcond]

/-- C6 witness: the concrete filterless update against a configured client
fails with the validation message and zero calls in both executors. -/
theorem C6_theorem_witness :
    executeDatabaseOperation (some c6Cfg) c6Net c6Op =
      (errResp "Table name, data, and filter are required for update operations", 0) ∧
    executeDatabaseOperationLLM (some c6Cfg) c6Net c6Op =
      (llmFail c6Op "Table name, data, and filter are required for update operations", 0) := by
  exact C6_theorem c6Cfg c6Net c6Op rfl (Or.inl rfl) (by decide) (by decide)

/-- C9 counterexample: on a 2xx upstream response the handler returns the
upstream body verbatim, not wrapped as `{data: <upstream body>}`: for an
upstream body `[]` the handler's body is `[]`, which is not of the shape
`{data: ...}`. -/
theorem C9_counterexample :
    action c9Req (.resp 200 c9Body) = (200, c9Body) ∧
    c9Body ≠ JVal.obj [("data", c9Body)] := by
  constructor
  · rfl
  · intro h
    exact JVal.noConfusion h

/-- C9 (amended): for every request carrying a path and a management key:
when the upstream responds 2xx, the handler returns the upstream JSON body
verbatim (no `{data: ...}` wrapper) with status 200; when the upstream
responds non-2xx, the handler returns `{error: m}` with the upstream's
status code, where `m` is the upstream body's `message` field when that is
truthy and the fixed fallback string otherwise. -/
theorem C9_theorem (req : ProxyRequest) (status : Nat) (body : JVal)
    (hm : req.httpMethod = "POST") (hp : isFalsyStr req.path = false)
    (hk : isFalsyStr req.key = false) :
    (200 ≤ status ∧ status < 300 →
      action req (.resp status body) = (200, body)) ∧
    (¬(200 ≤ status ∧ status < 300) →
      action req (.resp status body) =
        (status, .obj [("error", messageOr body)])) := by
  constructor
  · intro hok
    rw [action, if_neg (by simp [hm]), if_neg (by simp [hp]),
      if_neg (by simp [hk])]
    simp only [if_pos hok]
  · intro hbad
    rw [action, if_neg (by simp [hm]), if_neg (by simp [hp]),
      if_neg (by simp [hk])]
    simp only [if_neg hbad]

/-- C9 witness: a 201 upstream response is passed through verbatim; a 404
with a message body becomes `{error: message}` with status 404. -/
theorem C9_theorem_witness :
    action c9Req (.resp 201 c9Body) = (200, c9Body) ∧
    action c9Req (.resp 404 (.obj [("message", .str "not found")])) =
      (404, .obj [("error", .str "not found")]) := by
  constructor
  · exact (C9_theorem c9Req 201 c9Body rfl rfl rfl).1 (by omega)
  · have h := (C9_theorem c9Req 404 (.obj [("message", .str "not found")])
      rfl rfl rfl).2 (by omega)
    rw [h]
    rfl

theorem splitOnChar_ne_nil (c : Char) (l : List Char) :
    splitOnChar c l ≠ [] := by
  cases l with
  | nil => simp [splitOnChar]
  | cons d rest =>
    rcases h : splitOnChar c rest with _ | ⟨cur, others⟩
    · simp [splitOnChar, h]
    · by_cases hd : d == c <;> simp [splitOnChar, h, hd]

theorem splitOnChar_append_cons (c : Char) (X Y : List Char) :
    splitOnChar c (X ++ c :: Y) = splitOnChar c X ++ splitOnChar c Y := by
  induction X with
  | nil =>
    rcases h : splitOnChar c Y with _ | ⟨cur, others⟩
    · exact absurd h (splitOnChar_ne_nil c Y)
    · simp [splitOnChar, h]
  | cons d X ih =>
    rcases h : splitOnChar c X with _ | ⟨cur, others⟩
    · exact absurd h (splitOnChar_ne_nil c X)
    · by_cases hd : d == c <;> simp [splitOnChar, ih, h, hd]

theorem splitOnChar_of_not_mem {c : Char} {l : List Char} (h : c ∉ l) :
    splitOnChar c l = [l] := by
  induction l with
  | nil => rfl
  | cons d rest ih =>
    have hd : ¬ d == c := by
      simp only [List.mem_cons, not_or] at h
      simp [beq_iff_eq]
      exact fun he => h.1 he.symm
    have hrest : c ∉ rest := by
      simp only [List.mem_cons, not_or] at h
      exact h.2
    simp only [splitOnChar, ih hrest]
    rw [if_neg hd]

theorem joinSep_splitOnChar (c : Char) (l : List Char) :
    joinSep [c] (splitOnChar c l) = l := by
  induction l with
  | nil => rfl
  | cons d rest ih =>
    rcases h : splitOnChar c rest with _ | ⟨cur, others⟩
    · exact absurd h (splitOnChar_ne_nil c rest)
    · rw [h] at ih
      by_cases hd : d == c
      · have hdc : d = c := by simpa using hd
        subst hdc
        simp only [splitOnChar, h]
        rw [if_pos hd]
        simp only [joinSep, List.nil_append]
        rw [ih]
        rfl
      · simp only [splitOnChar, h]
        rw [if_neg hd]
        cases others with
        | nil =>
          simp only [joinSep] at ih ⊢
          rw [ih]
        | cons o os =>
          simp only [joinSep] at ih ⊢
          have h2 := congrArg (fun x => d :: x) ih
          simpa using h2

set_option maxRecDepth 40000 in
/-- C8 counterexample: for the valid definition `c8BadTable` (one column
`flag int4`, nullable, default value "0 NOT NULL"), the rendered clause
reads `flag int4 DEFAULT 0 NOT NULL`, so parsing it back yields
nullable = false while the input says nullable = true: the round-trip
fails. -/
theorem C8_counterexample :
    parseCreateTable (generateTableSQL c8BadTable) =
      some (strLit "users", [(strLit "flag", strLit "int4", false)]) ∧
    c8BadTable.columns.map columnTriple =
      [(strLit "flag", strLit "int4", true)] := by
  constructor
  · decide
  · decide

theorem spaceLed_nil : spaceLed [] := Or.inl rfl

theorem spaceLed_append {S S' : List Char} (h : spaceLed S) (h2 : spaceLed S') :
    spaceLed (S ++ S') := by
  rcases h with rfl | ⟨R, rfl⟩
  · simpa using h2
  · exact Or.inr ⟨R ++ S', rfl⟩

theorem spaceLed_ite (b : Bool) (X : List Char) (hX : spaceLed X) :
    spaceLed (if b then X else []) := by
  cases b
  · exact Or.inl rfl
  · simpa using hX

theorem split_append_spaceLed (A S : List Char) (h : spaceLed S) :
    splitOnChar ' ' (A ++ S) = splitOnChar ' ' A ++ splitTail S := by
  rcases h with rfl | ⟨R, rfl⟩
  · simp [splitTail]
  · rw [splitOnChar_append_cons]
    rfl

theorem splitTail_ite (b : Bool) (X : List Char) :
    splitTail (if b then X else []) = if b then splitTail X else [] := by
  cases b <;> simp [splitTail]

theorem colTypeName_no_space (ty : ColType) : ' ' ∉ colTypeName ty := by
  cases ty <;> decide

theorem splitTail_pkSeg (b : Bool) :
    splitTail (if b then strLit " PRIMARY KEY" else []) = pkChunk b := by
  cases b <;> decide

theorem splitTail_nnSeg (b : Bool) :
    splitTail (if b then strLit " NOT NULL" else []) = nnChunk b := by
  cases b <;> decide

theorem splitTail_uqSeg (b : Bool) :
    splitTail (if b then strLit " UNIQUE" else []) = uqChunk b := by
  cases b <;> decide

theorem splitTail_cons_space (X : List Char) :
    splitTail (' ' :: X) = splitOnChar ' ' X := by
  simp [splitTail]

theorem splitTail_dfSeg (dvOpt : Option (List Char)) :
    splitTail (match dvOpt with
      | some d => if d.isEmpty then [] else strLit " DEFAULT " ++ d
      | none => []) =
      dfChunk dvOpt := by
  rcases dvOpt with _ | d
  · rfl
  · show splitTail (if d.isEmpty then [] else strLit " DEFAULT " ++ d) =
      (if d.isEmpty then [] else strLit "DEFAULT" :: splitOnChar ' ' d)
    by_cases he : d.isEmpty
    · rw [if_pos he, if_pos he]
      rfl
    · rw [if_neg he, if_neg he]
      rw [show strLit " DEFAULT " ++ d = ' ' :: (strLit "DEFAULT" ++ ' ' :: d)
        from by simp [strLit]]
      rw [splitTail_cons_space]
      rw [splitOnChar_append_cons, splitOnChar_of_not_mem (by decide)]
      rfl

theorem splitTail_odSeg (od : OnDeleteAction) :
    splitTail (if od ≠ .noAction then strLit " ON DELETE " ++ onDeleteName od
      else []) =
      (if od ≠ .noAction then strLit "ON" :: strLit "DELETE" :: odToks od
        else []) := by
  cases od <;> decide

theorem splitTail_refSome (r : ColRef) (ht : ' ' ∉ r.table)
    (hc : ' ' ∉ r.column) :
    splitTail (strLit " REFERENCES " ++ r.table ++ strLit "(" ++ r.column ++
      strLit ")" ++
      (if r.onDelete ≠ .noAction then
        strLit " ON DELETE " ++ onDeleteName r.onDelete else [])) =
    [strLit "REFERENCES", r.table ++ strLit "(" ++ r.column ++ strLit ")"]
      ++ (if r.onDelete ≠ .noAction then
            strLit "ON" :: strLit "DELETE" :: odToks r.onDelete
          else []) := by
  have htok : ' ' ∉ r.table ++ strLit "(" ++ r.column ++ strLit ")" := by
    intro hm
    simp only [List.append_assoc, List.mem_append] at hm
    rcases hm with hm | hm | hm | hm
    · exact ht hm
    · exact absurd hm (by decide)
    · exact hc hm
    · exact absurd hm (by decide)
  have hodled : spaceLed (if r.onDelete ≠ .noAction then
      strLit " ON DELETE " ++ onDeleteName r.onDelete else []) := by
    by_cases hod : r.onDelete ≠ .noAction
    · rw [if_pos hod]
      exact Or.inr ⟨_, rfl⟩
    · rw [if_neg hod]
      exact Or.inl rfl
  rw [show strLit " REFERENCES " ++ r.table ++ strLit "(" ++ r.column ++
      strLit ")" ++
      (if r.onDelete ≠ .noAction then
        strLit " ON DELETE " ++ onDeleteName r.onDelete else []) =
      ' ' :: (strLit "REFERENCES" ++ ' ' ::
        ((r.table ++ strLit "(" ++ r.column ++ strLit ")") ++
          (if r.onDelete ≠ .noAction then
            strLit " ON DELETE " ++ onDeleteName r.onDelete else [])))
    from by simp [strLit, List.append_assoc]]
  rw [splitTail_cons_space]
  rw [splitOnChar_append_cons, splitOnChar_of_not_mem (by decide)]
  rw [split_append_spaceLed _ _ hodled, splitOnChar_of_not_mem htok]
  rw [splitTail_odSeg]
  rfl

/-- The rendered column splits on spaces into exactly `colToks`. -/
theorem columnSQL_toks (c : ColumnDef) (hname : ' ' ∉ c.name)
    (href : ∀ r, c.references = some r → ' ' ∉ r.table ∧ ' ' ∉ r.column) :
    splitOnChar ' ' (columnSQL c) = colToks c := by
  have hT : ' ' ∉ colTypeName c.type := colTypeName_no_space c.type
  have hPled : spaceLed (if c.primaryKey then strLit " PRIMARY KEY" else []) :=
    spaceLed_ite _ _ (Or.inr ⟨_, rfl⟩)
  have hNled : spaceLed (if !c.nullable then strLit " NOT NULL" else []) :=
    spaceLed_ite _ _ (Or.inr ⟨_, rfl⟩)
  have hUled : spaceLed (if c.unique then strLit " UNIQUE" else []) :=
    spaceLed_ite _ _ (Or.inr ⟨_, rfl⟩)
  have hDled : spaceLed (match c.defaultValue with
      | some d => if d.isEmpty then [] else strLit " DEFAULT " ++ d
      | none => []) := by
    rcases c.defaultValue with _ | d
    · exact Or.inl rfl
    · by_cases he : d.isEmpty
      · simp only [he, if_true]
        exact Or.inl rfl
      · simp only [he, if_false, if_neg he]
        exact Or.inr ⟨_, rfl⟩
  have hRled : spaceLed (match c.references with
      | some r =>
        strLit " REFERENCES " ++ r.table ++ strLit "(" ++ r.column ++ strLit ")"
          ++ (if r.onDelete ≠ .noAction then
                strLit " ON DELETE " ++ onDeleteName r.onDelete
              else [])
      | none => []) := by
    rcases c.references with _ | r
    · exact Or.inl rfl
    · exact Or.inr ⟨_, rfl⟩
  rw [columnSQL]
  rw [split_append_spaceLed _ _ hRled]
  rw [split_append_spaceLed _ _ hDled]
  rw [split_append_spaceLed _ _ hUled]
  rw [split_append_spaceLed _ _ hNled]
  rw [split_append_spaceLed _ _ hPled]
  rw [show c.name ++ strLit " " ++ colTypeName c.type =
    c.name ++ ' ' :: colTypeName c.type from by simp [strLit]]
  rw [splitOnChar_append_cons, splitOnChar_of_not_mem hname,
    splitOnChar_of_not_mem hT]
  rw [splitTail_pkSeg, splitTail_nnSeg, splitTail_uqSeg, splitTail_dfSeg]
  rw [colToks]
  clear hT hPled hNled hUled hDled hRled
  revert href
  rcases c.references with _ | r
  · intro href
    simp [List.append_assoc, splitTail, refChunk]
  · intro href
    obtain ⟨ht, hc⟩ := href r rfl
    show _ ++ splitTail (strLit " REFERENCES " ++ r.table ++ strLit "(" ++
      r.column ++ strLit ")" ++ _) = _
    rw [splitTail_refSome r ht hc]
    simp [List.append_assoc, refChunk]

/-! ### Nullability detection on the token list -/

theorem hNN_cons_of (x : List Char) (L : List (List Char))
    (hx : (x == strLit "NOT") = false) (hL : hasNotNullToks L = false) :
    hasNotNullToks (x :: L) = false := by
  cases L with
  | nil => rfl
  | cons l L2 =>
    simp only [hasNotNullToks, Bool.or_eq_false_iff, Bool.and_eq_false_iff]
    exact ⟨Or.inl hx, hL⟩

theorem hNN_append_false2 (X Y : List (List Char))
    (hX : hasNotNullToks X = false) (hY : hasNotNullToks Y = false)
    (hYhead : Y.head? ≠ some (strLit "NULL")) :
    hasNotNullToks (X ++ Y) = false := by
  induction X with
  | nil => simpa using hY
  | cons a X ih =>
    cases X with
    | nil =>
      cases Y with
      | nil => rfl
      | cons y Y2 =>
        have hy : (y == strLit "NULL") = false := by
          rw [beq_eq_false_iff_ne]
          intro he
          exact hYhead (by simp [he])
        simp only [List.cons_append, List.nil_append, hasNotNullToks,
          Bool.or_eq_false_iff, Bool.and_eq_false_iff]
        exact ⟨Or.inr hy, hY⟩
    | cons b X2 =>
      have hX2 : hasNotNullToks (b :: X2) = false := by
        simp only [hasNotNullToks, Bool.or_eq_false_iff] at hX
        exact hX.2
      have hab : (a == strLit "NOT" && b == strLit "NULL") = false := by
        simp only [hasNotNullToks, Bool.or_eq_false_iff] at hX
        exact hX.1
      have ih2 := ih hX2
      simp only [List.cons_append, hasNotNullToks, Bool.or_eq_false_iff]
      constructor
      · exact hab
      · simpa using ih2

theorem hNN_elem (A B : List (List Char)) :
    hasNotNullToks (A ++ strLit "NOT" :: strLit "NULL" :: B) = true := by
  induction A with
  | nil => simp [hasNotNullToks]
  | cons a A ih =>
    cases A with
    | nil => simp [hasNotNullToks]
    | cons b A2 =>
      simp only [List.cons_append, hasNotNullToks, Bool.or_eq_true]
      right
      simpa using ih

theorem hNN_true_decomp (L : List (List Char))
    (h : hasNotNullToks L = true) :
    ∃ A B, L = A ++ strLit "NOT" :: strLit "NULL" :: B := by
  induction L with
  | nil => simp [hasNotNullToks] at h
  | cons a L ih =>
    cases L with
    | nil => simp [hasNotNullToks] at h
    | cons b L2 =>
      simp only [hasNotNullToks, Bool.or_eq_true, Bool.and_eq_true,
        beq_iff_eq] at h
      rcases h with ⟨ha, hb⟩ | h2
      · exact ⟨[], L2, by simp [ha, hb]⟩
      · obtain ⟨A, B, hAB⟩ := ih h2
        exact ⟨a :: A, B, by rw [List.cons_append, hAB]⟩

theorem joinSep_append (s : List Char) (X Y : List (List Char))
    (hX : X ≠ []) (hY : Y ≠ []) :
    joinSep s (X ++ Y) = joinSep s X ++ s ++ joinSep s Y := by
  induction X with
  | nil => exact absurd rfl hX
  | cons x X ih =>
    cases X with
    | nil =>
      cases Y with
      | nil => exact absurd rfl hY
      | cons y Y2 => simp [joinSep]
    | cons x2 X2 =>
      have ih2 := ih (by simp)
      simp only [List.cons_append, joinSep, List.append_eq] at ih2 ⊢
      rw [ih2]
      simp [List.append_assoc]

/-- Tokens of a default value free of the `NOT NULL` substring never
contain an adjacent NOT NULL pair. -/
theorem hNN_split_of_not_contains (d : List Char)
    (hd : containsList (strLit "NOT NULL") d = false) :
    hasNotNullToks (splitOnChar ' ' d) = false := by
  by_cases h : hasNotNullToks (splitOnChar ' ' d) = true
  · exfalso
    obtain ⟨A, B, hAB⟩ := hNN_true_decomp _ h
    have hjoin : d = joinSep [' '] (A ++ strLit "NOT" :: strLit "NULL" :: B) := by
      rw [← hAB, joinSep_splitOnChar]
    have hcont : containsList (strLit "NOT NULL") d = true := by
      rcases hA : A with _ | ⟨a0, A'⟩
      · subst hA
        cases B with
        | nil =>
          refine (containsList_iff _ _).mpr ⟨[], [], ?_⟩
          rw [hjoin]
          rfl
        | cons b B2 =>
          refine (containsList_iff _ _).mpr
            ⟨[], [' '] ++ joinSep [' '] (b :: B2), ?_⟩
          rw [hjoin]
          simp [joinSep, strLit, List.append_assoc]
      · have hAne : A ≠ [] := by rw [hA]; simp
        have hsplit := joinSep_append [' '] A
          (strLit "NOT" :: strLit "NULL" :: B) hAne (by simp)
        cases B with
        | nil =>
          refine (containsList_iff _ _).mpr
            ⟨joinSep [' '] A ++ [' '], [], ?_⟩
          rw [hjoin, hsplit]
          simp [joinSep, strLit, List.append_assoc]
        | cons b B2 =>
          refine (containsList_iff _ _).mpr
            ⟨joinSep [' '] A ++ [' '], [' '] ++ joinSep [' '] (b :: B2), ?_⟩
          rw [hjoin, hsplit]
          simp [joinSep, strLit, List.append_assoc]
    rw [hcont] at hd
    exact absurd hd (by simp)
  · simpa using h

theorem head_ne_append (X Y : List (List Char)) (v : List Char)
    (hX : X.head? ≠ some v) (hY : Y.head? ≠ some v) :
    (X ++ Y).head? ≠ some v := by
  cases X with
  | nil => simpa using hY
  | cons x X2 => simpa using hX

theorem hNN_pkChunk (b : Bool) : hasNotNullToks (pkChunk b) = false := by
  cases b <;> decide

theorem hNN_uqChunk (b : Bool) : hasNotNullToks (uqChunk b) = false := by
  cases b <;> decide

theorem head_uqChunk (b : Bool) :
    (uqChunk b).head? ≠ some (strLit "NULL") := by
  cases b <;> decide

theorem hNN_dfChunk (dvOpt : Option (List Char))
    (hdv : ∀ d, dvOpt = some d →
      containsList (strLit "NOT NULL") d = false) :
    hasNotNullToks (dfChunk dvOpt) = false := by
  cases dvOpt with
  | none => rfl
  | some d =>
    show hasNotNullToks
      (if d.isEmpty then [] else strLit "DEFAULT" :: splitOnChar ' ' d) = false
    by_cases he : d.isEmpty
    · rw [if_pos he]
      rfl
    · rw [if_neg he]
      exact hNN_cons_of _ _ (by decide)
        (hNN_split_of_not_contains d (hdv d rfl))

theorem head_dfChunk (dvOpt : Option (List Char)) :
    (dfChunk dvOpt).head? ≠ some (strLit "NULL") := by
  cases dvOpt with
  | none => simp [dfChunk]
  | some d =>
    show (if d.isEmpty then [] else
      strLit "DEFAULT" :: splitOnChar ' ' d).head? ≠ some (strLit "NULL")
    by_cases he : d.isEmpty
    · rw [if_pos he]
      simp
    · rw [if_neg he]
      simp only [List.head?_cons]
      intro h
      exact absurd (Option.some.inj h) (by decide)

theorem hNN_refChunk (refOpt : Option ColRef) :
    hasNotNullToks (refChunk refOpt) = false := by
  cases refOpt with
  | none => rfl
  | some r =>
    show hasNotNullToks
      ([strLit "REFERENCES", r.table ++ strLit "(" ++ r.column ++ strLit ")"]
        ++ (if r.onDelete ≠ .noAction then
              strLit "ON" :: strLit "DELETE" :: odToks r.onDelete
            else [])) = false
    have htokne : ((r.table ++ strLit "(" ++ r.column ++ strLit ")") ==
        strLit "NOT") = false := by
      rw [beq_eq_false_iff_ne]
      intro he
      have hp : '(' ∈ r.table ++ strLit "(" ++ r.column ++ strLit ")" := by
        simp only [List.append_assoc, List.mem_append]
        right
        left
        decide
      rw [he] at hp
      exact absurd hp (by decide)
    have hod : hasNotNullToks (if r.onDelete ≠ .noAction then
        strLit "ON" :: strLit "DELETE" :: odToks r.onDelete else []) = false := by
      cases r.onDelete <;> decide
    rw [List.cons_append, List.cons_append, List.nil_append]
    exact hNN_cons_of _ _ (by decide) (hNN_cons_of _ _ htokne hod)

theorem head_refChunk (refOpt : Option ColRef) :
    (refChunk refOpt).head? ≠ some (strLit "NULL") := by
  cases refOpt with
  | none => simp [refChunk]
  | some r =>
    show ([strLit "REFERENCES", _] ++ _).head? ≠ some (strLit "NULL")
    rw [List.cons_append, List.head?_cons]
    intro h
    exact absurd (Option.some.inj h) (by decide)

theorem colTypeName_ne_NOT (ty : ColType) :
    (colTypeName ty == strLit "NOT") = false := by
  cases ty <;> decide

/-- A rendered non-nullable column always shows the NOT NULL pair. -/
theorem colToks_hNN_true (c : ColumnDef) (hnull : c.nullable = false) :
    hasNotNullToks (colToks c) = true := by
  have hn : nnChunk (!c.nullable) = [strLit "NOT", strLit "NULL"] := by
    rw [hnull]
    rfl
  rw [show colToks c =
    ([c.name, colTypeName c.type] ++ pkChunk c.primaryKey) ++
      strLit "NOT" :: strLit "NULL" ::
        (uqChunk c.unique ++
          (dfChunk c.defaultValue ++ refChunk c.references))
    from by rw [colToks, hn]; simp [List.append_assoc]]
  exact hNN_elem _ _

/-- A rendered nullable column (with a well-behaved name and default
value) never shows an adjacent NOT NULL pair. -/
theorem colToks_hNN_false (c : ColumnDef) (hnull : c.nullable = true)
    (hname : (c.name == strLit "NOT") = false)
    (hdv : ∀ d, c.defaultValue = some d →
      containsList (strLit "NOT NULL") d = false) :
    hasNotNullToks (colToks c) = false := by
  have hn : nnChunk (!c.nullable) = [] := by
    rw [hnull]
    rfl
  rw [show colToks c =
    c.name :: colTypeName c.type ::
      (pkChunk c.primaryKey ++
        (uqChunk c.unique ++
          (dfChunk c.defaultValue ++ refChunk c.references)))
    from by rw [colToks, hn]; simp [List.append_assoc]]
  refine hNN_cons_of _ _ hname (hNN_cons_of _ _ (colTypeName_ne_NOT c.type) ?_)
  refine hNN_append_false2 _ _ (hNN_pkChunk c.primaryKey) ?_ ?_
  · refine hNN_append_false2 _ _ (hNN_uqChunk c.unique) ?_ ?_
    · exact hNN_append_false2 _ _ (hNN_dfChunk c.defaultValue hdv)
        (hNN_refChunk c.references) (head_refChunk c.references)
    · exact head_ne_append _ _ _ (head_dfChunk c.defaultValue)
        (head_refChunk c.references)
  · refine head_ne_append _ _ _ (head_uqChunk c.unique) ?_
    exact head_ne_append _ _ _ (head_dfChunk c.defaultValue)
      (head_refChunk c.references)

theorem bodyLines_ne_nil (ds : List (List Char)) : bodyLines ds ≠ [] := by
  cases ds with
  | nil => simp [bodyLines]
  | cons d rest =>
    cases rest with
    | nil => simp [bodyLines]
    | cons d2 rest2 => simp [bodyLines]

theorem bodyJoin (ds : List (List Char)) :
    strLit "  " ++ joinSep (strLit ",\n  ") ds =
      joinSep (strLit "\n") (bodyLines ds) := by
  induction ds with
  | nil => rfl
  | cons d rest ih =>
    cases rest with
    | nil => rfl
    | cons d2 rest2 =>
      rw [show bodyLines (d :: d2 :: rest2) =
        (strLit "  " ++ d ++ strLit ",") :: bodyLines (d2 :: rest2) from rfl]
      rcases hb : bodyLines (d2 :: rest2) with _ | ⟨b0, brest⟩
      · exact absurd hb (bodyLines_ne_nil _)
      · rw [show joinSep (strLit "\n")
            ((strLit "  " ++ d ++ strLit ",") :: b0 :: brest) =
          (strLit "  " ++ d ++ strLit ",") ++ strLit "\n"
            ++ joinSep (strLit "\n") (b0 :: brest) from rfl]
        rw [← hb, ← ih]
        rw [show joinSep (strLit ",\n  ") (d :: d2 :: rest2) =
          d ++ strLit ",\n  " ++ joinSep (strLit ",\n  ") (d2 :: rest2) from rfl]
        simp [strLit, List.append_assoc]

theorem joinSep_polCommentSeg (ps : List Policy) :
    joinSep (strLit "\n") (polCommentSeg ps) =
      joinSep (strLit "\n") (ps.map commentPolicyLine) := by
  cases ps <;> rfl

theorem polCommentSeg_ne_nil (ps : List Policy) : polCommentSeg ps ≠ [] := by
  cases ps <;> simp [polCommentSeg]

/-- The rendered script is the newline-join of its pre-lines followed by a
newline and the tail. -/
theorem generateTableSQL_decomp (t : TableDefinition)
    (hcols : t.columns ≠ []) :
    generateTableSQL t =
      joinSep (strLit "\n") (preLines t) ++ strLit "\n" ++ tailAfter t := by
  have hcolsne : t.columns.map commentColLine ≠ [] := by
    simpa using hcols
  have hbodyne : bodyLines (t.columns.map columnSQL) ≠ [] :=
    bodyLines_ne_nil _
  rw [preLines, headLines]
  rw [show (([strLit "/*",
      strLit "  # Create " ++ t.name ++ strLit " table",
      strLit "  ",
      strLit "  1. New Tables",
      strLit "    - " ++ t.name]
    ++ t.columns.map commentColLine
    ++ [strLit "  ",
        strLit "  2. Security",
        strLit "    - Enable RLS: " ++ boolLit t.enableRLS,
        strLit "    - Policies:"]
    ++ polCommentSeg t.policies
    ++ [strLit "*/", []])
    ++ createLine t :: bodyLines (t.columns.map columnSQL) ++ [strLit ");"]) =
    [strLit "/*",
      strLit "  # Create " ++ t.name ++ strLit " table",
      strLit "  ",
      strLit "  1. New Tables",
      strLit "    - " ++ t.name]
    ++ (t.columns.map commentColLine
    ++ ([strLit "  ",
        strLit "  2. Security",
        strLit "    - Enable RLS: " ++ boolLit t.enableRLS,
        strLit "    - Policies:"]
    ++ (polCommentSeg t.policies
    ++ ([strLit "*/", []]
    ++ (createLine t :: bodyLines (t.columns.map columnSQL) ++ [strLit ");"])))))
    from by simp [List.append_assoc]]
  rw [joinSep_append _ _ _ (by simp) (by simp [hcolsne])]
  rw [joinSep_append _ _ _ hcolsne (by simp)]
  rw [joinSep_append _ _ _ (by simp) (by simp [polCommentSeg_ne_nil])]
  rw [joinSep_append _ _ _ (polCommentSeg_ne_nil _) (by simp)]
  rw [joinSep_append _ _ _ (by simp) (by simp)]
  rw [show createLine t :: bodyLines (t.columns.map columnSQL) ++ [strLit ");"] =
    [createLine t] ++ (bodyLines (t.columns.map columnSQL) ++ [strLit ");"])
    from by simp]
  rw [joinSep_append _ _ _ (by simp) (by simp [hbodyne])]
  rw [joinSep_append _ _ _ hbodyne (by simp)]
  rw [joinSep_polCommentSeg]
  rw [← bodyJoin]
  rw [generateTableSQL, createLine, tailAfter]
  simp only [joinSep]
  simp [strLit, List.append_assoc]

/-! ### Newline-freedom of the pre-lines -/

theorem validIdent_chars (s : List Char) (h : validIdent s = true) :
    ∀ x ∈ s, (x.isLower || x.isDigit || x == '_') = true := by
  cases s with
  | nil => exact absurd h (by decide)
  | cons c rest =>
    simp only [validIdent, Bool.and_eq_true, List.all_eq_true] at h
    intro x hx
    rcases List.mem_cons.mp hx with rfl | hx
    · simp [h.1]
    · exact h.2 x hx

theorem validIdent_no_space (s : List Char) (h : validIdent s = true) :
    ' ' ∉ s := by
  intro hm
  exact absurd (validIdent_chars s h ' ' hm) (by decide)

theorem validIdent_no_nl (s : List Char) (h : validIdent s = true) :
    '\n' ∉ s := by
  intro hm
  exact absurd (validIdent_chars s h '\n' hm) (by decide)

theorem validIdent_ne_NOT (s : List Char) (h : validIdent s = true) :
    (s == strLit "NOT") = false := by
  rw [beq_eq_false_iff_ne]
  intro hs
  rw [hs] at h
  exact absurd h (by decide)

theorem mem_ite_char (x : Char) (b : Bool) (X : List Char) (hX : x ∉ X) :
    x ∉ (if b then X else []) := by
  cases b
  · simp
  · simpa using hX

theorem not_mem_append (x : Char) (X Y : List Char) (hX : x ∉ X)
    (hY : x ∉ Y) : x ∉ X ++ Y := by
  intro hm
  rcases List.mem_append.mp hm with h | h
  · exact hX h
  · exact hY h

theorem columnSQL_no_nl (c : ColumnDef) (hname : '\n' ∉ c.name)
    (hdv : ∀ d, c.defaultValue = some d → '\n' ∉ d)
    (href : ∀ r, c.references = some r → '\n' ∉ r.table ∧ '\n' ∉ r.column) :
    '\n' ∉ columnSQL c := by
  have hD : '\n' ∉ (match c.defaultValue with
      | some d => if d.isEmpty then [] else strLit " DEFAULT " ++ d
      | none => []) := by
    revert hdv
    rcases c.defaultValue with _ | d
    · intro _
      simp
    · intro hdv
      show '\n' ∉ (if d.isEmpty then [] else strLit " DEFAULT " ++ d)
      by_cases he : d.isEmpty = true
      · rw [if_pos he]
        simp
      · rw [if_neg he]
        exact not_mem_append _ _ _ (by decide) (hdv d rfl)
  have hR : '\n' ∉ (match c.references with
      | some r =>
        strLit " REFERENCES " ++ r.table ++ strLit "(" ++ r.column ++ strLit ")"
          ++ (if r.onDelete ≠ .noAction then
                strLit " ON DELETE " ++ onDeleteName r.onDelete
              else [])
      | none => []) := by
    revert href
    rcases c.references with _ | r
    · intro _
      simp
    · intro href
      obtain ⟨ht, hc⟩ := href r rfl
      show '\n' ∉ (strLit " REFERENCES " ++ r.table ++ strLit "(" ++ r.column
        ++ strLit ")"
        ++ (if r.onDelete ≠ .noAction then
              strLit " ON DELETE " ++ onDeleteName r.onDelete
            else []))
      refine not_mem_append _ _ _ (not_mem_append _ _ _ (not_mem_append _ _ _
        (not_mem_append _ _ _ (not_mem_append _ _ _ (by decide) ht)
          (by decide)) hc) (by decide)) ?_
      by_cases hod : r.onDelete ≠ OnDeleteAction.noAction
      · rw [if_pos hod]
        refine not_mem_append _ _ _ (by decide) ?_
        cases r.onDelete <;> decide
      · rw [if_neg hod]
        simp
  rw [columnSQL]
  refine not_mem_append _ _ _ (not_mem_append _ _ _ (not_mem_append _ _ _
    (not_mem_append _ _ _ (not_mem_append _ _ _ (not_mem_append _ _ _
      (not_mem_append _ _ _ hname (by decide))
        (by cases c.type <;> decide))
        (mem_ite_char _ _ _ (by decide)))
        (mem_ite_char _ _ _ (by decide)))
        (mem_ite_char _ _ _ (by decide))) hD) hR

theorem commentColLine_no_nl (c : ColumnDef) (hname : '\n' ∉ c.name) :
    '\n' ∉ commentColLine c := by
  rw [commentColLine]
  refine not_mem_append _ _ _ (not_mem_append _ _ _ (not_mem_append _ _ _
    (not_mem_append _ _ _ (not_mem_append _ _ _ (not_mem_append _ _ _
      (not_mem_append _ _ _ (by decide) hname) (by decide))
        (by cases c.type <;> decide))
        (mem_ite_char _ _ _ (by decide)))
        (mem_ite_char _ _ _ (by decide)))
        (mem_ite_char _ _ _ (by decide))) (by decide)

theorem commentPolicyLine_no_nl (p : Policy) (hname : '\n' ∉ p.name) :
    '\n' ∉ commentPolicyLine p := by
  rw [commentPolicyLine]
  refine not_mem_append _ _ _ (not_mem_append _ _ _ (not_mem_append _ _ _
    (not_mem_append _ _ _ (not_mem_append _ _ _
      (not_mem_append _ _ _ (by decide) hname) (by decide))
        (by cases p.action <;> decide))
        (by decide))
        (by cases p.role <;> decide)) (by decide)

theorem bodyLines_no_nl (ds : List (List Char)) (h : ∀ d ∈ ds, '\n' ∉ d) :
    ∀ l ∈ bodyLines ds, '\n' ∉ l := by
  induction ds with
  | nil =>
    intro l hl
    rw [show bodyLines [] = [strLit "  "] from rfl] at hl
    simp only [List.mem_singleton] at hl
    subst hl
    decide
  | cons d rest ih =>
    cases rest with
    | nil =>
      intro l hl
      rw [show bodyLines [d] = [strLit "  " ++ d] from rfl] at hl
      simp only [List.mem_singleton] at hl
      subst hl
      intro hm
      rcases List.mem_append.mp hm with hm | hm
      · exact absurd hm (by decide)
      · exact h d (by simp) hm
    | cons d2 rest2 =>
      intro l hl
      rw [show bodyLines (d :: d2 :: rest2) =
        (strLit "  " ++ d ++ strLit ",") :: bodyLines (d2 :: rest2) from rfl]
        at hl
      rcases List.mem_cons.mp hl with rfl | hl
      · intro hm
        rcases List.mem_append.mp hm with hm | hm
        · rcases List.mem_append.mp hm with hm | hm
          · exact absurd hm (by decide)
          · exact h d (by simp) hm
        · exact absurd hm (by decide)
      · exact ih (fun x hx => h x (by simp [hx])) l hl

theorem forall_mem_append {α : Type} {P : α → Prop} {X Y : List α}
    (hX : ∀ l ∈ X, P l) (hY : ∀ l ∈ Y, P l) : ∀ l ∈ X ++ Y, P l := by
  intro l hl
  rcases List.mem_append.mp hl with h | h
  · exact hX l h
  · exact hY l h

theorem headLines_no_nl (t : TableDefinition)
    (htname : '\n' ∉ t.name)
    (hcoln : ∀ c ∈ t.columns, '\n' ∉ c.name)
    (hpol : ∀ p ∈ t.policies, '\n' ∉ p.name) :
    ∀ l ∈ headLines t, '\n' ∉ l := by
  rw [headLines]
  refine forall_mem_append (forall_mem_append (forall_mem_append
    (forall_mem_append ?ha ?hb) ?hc) ?hd) ?he
  case ha =>
    intro l hl
    simp only [List.mem_cons, List.not_mem_nil, or_false] at hl
    rcases hl with rfl | rfl | rfl | rfl | rfl
    · decide
    · exact not_mem_append _ _ _
        (not_mem_append _ _ _ (by decide) htname) (by decide)
    · decide
    · decide
    · exact not_mem_append _ _ _ (by decide) htname
  case hb =>
    intro l hl
    simp only [List.mem_map] at hl
    obtain ⟨c, hc, rfl⟩ := hl
    exact commentColLine_no_nl c (hcoln c hc)
  case hc =>
    intro l hl
    simp only [List.mem_cons, List.not_mem_nil, or_false] at hl
    rcases hl with rfl | rfl | rfl | rfl
    · decide
    · decide
    · exact not_mem_append _ _ _ (by decide)
        (by cases t.enableRLS <;> decide)
    · decide
  case hd =>
    cases hps : t.policies with
    | nil =>
      intro l hl
      rw [show polCommentSeg ([] : List Policy) = [[]] from rfl] at hl
      simp only [List.mem_singleton] at hl
      subst hl
      simp
    | cons p ps =>
      intro l hl
      rw [show polCommentSeg (p :: ps) =
        (p :: ps).map commentPolicyLine from rfl] at hl
      simp only [List.mem_map] at hl
      obtain ⟨q, hq, rfl⟩ := hl
      refine commentPolicyLine_no_nl q (hpol q ?_)
      rw [hps]
      exact hq
  case he =>
    intro l hl
    simp only [List.mem_cons, List.not_mem_nil, or_false] at hl
    rcases hl with rfl | rfl
    · decide
    · simp

theorem preLines_no_nl (t : TableDefinition)
    (htname : '\n' ∉ t.name)
    (hcoln : ∀ c ∈ t.columns, '\n' ∉ c.name)
    (hcolsql : ∀ c ∈ t.columns, '\n' ∉ columnSQL c)
    (hpol : ∀ p ∈ t.policies, '\n' ∉ p.name) :
    ∀ l ∈ preLines t, '\n' ∉ l := by
  rw [preLines]
  refine forall_mem_append
    (forall_mem_append (headLines_no_nl t htname hcoln hpol) ?hbody) ?hclose
  case hbody =>
    intro l hl
    rcases List.mem_cons.mp hl with rfl | hl
    · exact not_mem_append _ _ _
        (not_mem_append _ _ _ (by decide) htname) (by decide)
    · refine bodyLines_no_nl _ ?_ l hl
      intro d hd
      simp only [List.mem_map] at hd
      obtain ⟨c, hc, rfl⟩ := hd
      exact hcolsql c hc
  case hclose =>
    intro l hl
    simp only [List.mem_singleton] at hl
    subst hl
    decide

/-! ### Splitting the script into its lines -/

theorem splitOnChar_joinSep_eq (c : Char) (ls : List (List Char))
    (hne : ls ≠ []) (h : ∀ l ∈ ls, c ∉ l) :
    splitOnChar c (joinSep [c] ls) = ls := by
  induction ls with
  | nil => exact absurd rfl hne
  | cons l rest ih =>
    cases rest with
    | nil =>
      show splitOnChar c l = [l]
      exact splitOnChar_of_not_mem (h l (by simp))
    | cons l2 rest2 =>
      rw [show joinSep [c] (l :: l2 :: rest2) =
        l ++ c :: joinSep [c] (l2 :: rest2) from by
          rw [show joinSep [c] (l :: l2 :: rest2) =
            l ++ [c] ++ joinSep [c] (l2 :: rest2) from rfl]
          simp]
      rw [splitOnChar_append_cons, splitOnChar_of_not_mem (h l (by simp))]
      rw [ih (by simp) (fun x hx => h x (by simp [hx]))]
      rfl

theorem generateTableSQL_split (t : TableDefinition)
    (hcols : t.columns ≠ [])
    (hpre : ∀ l ∈ preLines t, '\n' ∉ l) :
    splitOnChar '\n' (generateTableSQL t) =
      preLines t ++ splitOnChar '\n' (tailAfter t) := by
  rw [generateTableSQL_decomp t hcols]
  rw [show joinSep (strLit "\n") (preLines t) ++ strLit "\n" ++ tailAfter t =
    joinSep ['\n'] (preLines t) ++ '\n' :: tailAfter t from by
      simp [strLit]]
  rw [splitOnChar_append_cons]
  rw [splitOnChar_joinSep_eq '\n' (preLines t) (by simp [preLines]) hpre]

/-! ### Walking the parser over the lines -/

theorem findCreate_append_skip (H rest : List (List Char))
    (h : ∀ l ∈ H, leadsWith createMarker l = false) :
    findCreate (H ++ rest) = findCreate rest := by
  induction H with
  | nil => rfl
  | cons l H ih =>
    rw [List.cons_append]
    have hl : leadsWith createMarker l = false := h l (by simp)
    simp only [findCreate, hl, Bool.false_eq_true, if_false]
    exact ih (fun x hx => h x (by simp [hx]))

theorem headLines_no_marker (t : TableDefinition) :
    ∀ l ∈ headLines t, leadsWith createMarker l = false := by
  rw [headLines]
  refine forall_mem_append (forall_mem_append (forall_mem_append
    (forall_mem_append ?ha ?hb) ?hc) ?hd) ?he
  case ha =>
    intro l hl
    simp only [List.mem_cons, List.not_mem_nil, or_false] at hl
    rcases hl with rfl | rfl | rfl | rfl | rfl <;> rfl
  case hb =>
    intro l hl
    simp only [List.mem_map] at hl
    obtain ⟨c, _, rfl⟩ := hl
    rfl
  case hc =>
    intro l hl
    simp only [List.mem_cons, List.not_mem_nil, or_false] at hl
    rcases hl with rfl | rfl | rfl | rfl <;> rfl
  case hd =>
    cases t.policies with
    | nil =>
      intro l hl
      rw [show polCommentSeg ([] : List Policy) = [[]] from rfl] at hl
      simp only [List.mem_singleton] at hl
      subst hl
      rfl
    | cons p ps =>
      intro l hl
      rw [show polCommentSeg (p :: ps) =
        (p :: ps).map commentPolicyLine from rfl] at hl
      simp only [List.mem_map] at hl
      obtain ⟨q, _, rfl⟩ := hl
      rfl
  case he =>
    intro l hl
    simp only [List.mem_cons, List.not_mem_nil, or_false] at hl
    rcases hl with rfl | rfl <;> rfl

theorem stripParenEnd_append (X : List Char) :
    stripParenEnd (X ++ strLit " (") = some X := by
  rw [show X ++ strLit " (" = X ++ [' ', '('] from rfl]
  rw [stripParenEnd]
  rw [show (X ++ [' ', '(']).reverse = '(' :: ' ' :: X.reverse from by
    simp]
  simp

theorem findCreate_at_create (t : TableDefinition) (rest : List (List Char))
    (ds : List (List Char × List Char × Bool))
    (hcd : collectDefs rest = some ds) :
    findCreate (createLine t :: rest) = some (t.name, ds) := by
  have hlw : leadsWith createMarker (createLine t) = true := by
    rw [leadsWith_iff]
    exact ⟨t.name ++ strLit " (", by
      rw [createLine, createMarker, List.append_assoc]⟩
  have hdrop : (createLine t).drop createMarker.length =
      t.name ++ strLit " (" := by
    rw [show createLine t = createMarker ++ (t.name ++ strLit " (") from by
      rw [createLine, createMarker, List.append_assoc]]
    exact List.drop_left _ _
  simp only [findCreate, hlw, if_true, hdrop, stripParenEnd_append, hcd]

theorem collectDefs_close (rest : List (List Char)) :
    collectDefs (strLit ");" :: rest) = some [] := by
  simp [collectDefs]

theorem collectDefs_cons_ne (l : List Char) (rest : List (List Char))
    (h : (l == strLit ");") = false)
    (ds : List (List Char × List Char × Bool))
    (hrest : collectDefs rest = some ds) :
    collectDefs (l :: rest) = some (parseColLine l :: ds) := by
  simp [collectDefs, h, hrest]

theorem collectDefs_walk (ds : List (List Char)) (rest : List (List Char)) :
    collectDefs (bodyLines ds ++ strLit ");" :: rest) =
      some (parsedLines ds) := by
  induction ds with
  | nil =>
    rw [show bodyLines [] = [strLit "  "] from rfl, List.singleton_append]
    rw [collectDefs_cons_ne _ _ (by decide) [] (collectDefs_close rest)]
    rfl
  | cons d rest2 ih =>
    cases rest2 with
    | nil =>
      rw [show bodyLines [d] = [strLit "  " ++ d] from rfl,
        List.singleton_append]
      rw [collectDefs_cons_ne (strLit "  " ++ d) _ rfl []
        (collectDefs_close rest)]
      rfl
    | cons d2 rest3 =>
      rw [show bodyLines (d :: d2 :: rest3) =
        (strLit "  " ++ d ++ strLit ",") :: bodyLines (d2 :: rest3) from rfl,
        List.cons_append]
      rw [collectDefs_cons_ne (strLit "  " ++ d ++ strLit ",") _ rfl _ ih]
      rfl

/-! ### Parsing one body line back into a column triple -/

theorem stripComma_append_comma (d : List Char) :
    stripComma (d ++ strLit ",") = d := by
  rw [stripComma]
  rw [show (d ++ strLit ",").reverse = ',' :: d.reverse from by
    rw [List.reverse_append]
    rfl]
  simp

theorem stripComma_eq_self (l : List Char) (h : l.getLast? ≠ some ',') :
    stripComma l = l := by
  rw [stripComma]
  split
  · rename_i rest heq
    exfalso
    apply h
    rw [← List.head?_reverse, heq]
    rfl
  · rfl

theorem parseColLine_comma (d : List Char) :
    parseColLine (strLit "  " ++ d ++ strLit ",") =
      ((splitOnChar ' ' d).getD 0 [], (splitOnChar ' ' d).getD 1 [],
        !hasNotNullToks (splitOnChar ' ' d)) := by
  have hdrop : (strLit "  " ++ d ++ strLit ",").drop 2 = d ++ strLit "," := by
    rw [show strLit "  " ++ d ++ strLit "," =
      ' ' :: ' ' :: (d ++ strLit ",") from by simp [strLit]]
    rfl
  simp only [parseColLine, hdrop, stripComma_append_comma]

theorem parseColLine_nocomma (d : List Char) (h : stripComma d = d) :
    parseColLine (strLit "  " ++ d) =
      ((splitOnChar ' ' d).getD 0 [], (splitOnChar ' ' d).getD 1 [],
        !hasNotNullToks (splitOnChar ' ' d)) := by
  have hdrop : (strLit "  " ++ d).drop 2 = d := rfl
  simp only [parseColLine, hdrop, h]

theorem getLast_append_right (X Y : List Char) (h : Y ≠ []) :
    (X ++ Y).getLast? = Y.getLast? := by
  rw [← List.head?_reverse, ← List.head?_reverse, List.reverse_append]
  cases hY : Y.reverse with
  | nil => exact absurd (by simpa using hY) h
  | cons a r => rfl

theorem columnSQLCore_getLast (c : ColumnDef) :
    (c.name ++ strLit " " ++ colTypeName c.type
      ++ (if c.primaryKey then strLit " PRIMARY KEY" else [])
      ++ (if !c.nullable then strLit " NOT NULL" else [])
      ++ (if c.unique then strLit " UNIQUE" else [])).getLast? ≠ some ',' := by
  by_cases hu : c.unique = true
  · rw [if_pos hu, getLast_append_right _ _ (by decide)]
    decide
  · rw [if_neg hu, List.append_nil]
    by_cases hn : (!c.nullable) = true
    · rw [if_pos hn, getLast_append_right _ _ (by decide)]
      decide
    · rw [if_neg hn, List.append_nil]
      by_cases hp : c.primaryKey = true
      · rw [if_pos hp, getLast_append_right _ _ (by decide)]
        decide
      · rw [if_neg hp, List.append_nil]
        rw [getLast_append_right _ _ (by cases c.type <;> decide)]
        cases c.type <;> decide

theorem columnSQL_eq_segs (c : ColumnDef) :
    columnSQL c = coreSeg c ++ dfSeg c.defaultValue ++ refSeg c.references :=
  rfl

theorem columnSQL_getLast (c : ColumnDef)
    (hdv : ∀ d, c.defaultValue = some d → d.getLast? ≠ some ',') :
    (columnSQL c).getLast? ≠ some ',' := by
  rw [columnSQL_eq_segs]
  rcases hr : c.references with _ | r
  · rw [show refSeg none = [] from rfl, List.append_nil]
    rcases hd : c.defaultValue with _ | d
    · rw [show dfSeg none = [] from rfl, List.append_nil]
      exact columnSQLCore_getLast c
    · rw [show dfSeg (some d) =
        (if d.isEmpty then [] else strLit " DEFAULT " ++ d) from rfl]
      by_cases he : d.isEmpty = true
      · rw [if_pos he, List.append_nil]
        exact columnSQLCore_getLast c
      · rw [if_neg he]
        have hdne : d ≠ [] := by
          intro hnil
          rw [hnil] at he
          exact he rfl
        rw [getLast_append_right _ _ (by
          intro hnil
          exact hdne (List.append_eq_nil.mp hnil).2)]
        rw [getLast_append_right _ _ hdne]
        exact hdv d hd
  · rw [show refSeg (some r) =
      strLit " REFERENCES " ++ r.table ++ strLit "(" ++ r.column ++ strLit ")"
        ++ (if r.onDelete ≠ .noAction then
              strLit " ON DELETE " ++ onDeleteName r.onDelete
            else []) from rfl]
    by_cases hod : r.onDelete ≠ OnDeleteAction.noAction
    · rw [if_pos hod]
      rw [getLast_append_right _ _ (by
        intro hnil
        have h1 := (List.append_eq_nil.mp hnil).1
        exact absurd (List.append_eq_nil.mp h1).2 (by decide))]
      rw [getLast_append_right _ _ (by
        intro hnil
        exact absurd (List.append_eq_nil.mp hnil).1 (by decide))]
      rw [getLast_append_right _ _ (by cases r.onDelete <;> decide)]
      cases r.onDelete <;> decide
    · rw [if_neg hod, List.append_nil]
      rw [getLast_append_right _ _ (by
        intro hnil
        exact absurd (List.append_eq_nil.mp hnil).2 (by decide))]
      rw [getLast_append_right _ _ (by decide)]
      decide

theorem colToks_triple (c : ColumnDef)
    (hid : validIdent c.name = true)
    (hdvNN : ∀ d, c.defaultValue = some d →
      containsList (strLit "NOT NULL") d = false) :
    ((colToks c).getD 0 [], (colToks c).getD 1 [],
      !hasNotNullToks (colToks c)) = columnTriple c := by
  have hgd0 : (colToks c).getD 0 [] = c.name := by
    rw [colToks]
    rfl
  have hgd1 : (colToks c).getD 1 [] = colTypeName c.type := by
    rw [colToks]
    rfl
  cases hnl : c.nullable with
  | false =>
    rw [colToks_hNN_true c hnl, hgd0, hgd1, columnTriple, hnl]
    rfl
  | true =>
    rw [colToks_hNN_false c hnl (validIdent_ne_NOT _ hid) hdvNN,
      hgd0, hgd1, columnTriple, hnl]
    rfl

theorem parseColLine_column (c : ColumnDef) (hok : colOk c) :
    parseColLine (strLit "  " ++ columnSQL c ++ strLit ",") =
      columnTriple c := by
  obtain ⟨hid, hdv, href⟩ := hok
  rw [parseColLine_comma]
  rw [columnSQL_toks c (validIdent_no_space _ hid)
    (fun r hr => ⟨validIdent_no_space _ (href r hr).1,
      validIdent_no_space _ (href r hr).2⟩)]
  exact colToks_triple c hid (fun d hd => (hdv d hd).1)

theorem parseColLine_column_last (c : ColumnDef) (hok : colOk c) :
    parseColLine (strLit "  " ++ columnSQL c) = columnTriple c := by
  obtain ⟨hid, hdv, href⟩ := hok
  rw [parseColLine_nocomma _ (stripComma_eq_self _
    (columnSQL_getLast c (fun d hd => (hdv d hd).2.2)))]
  rw [columnSQL_toks c (validIdent_no_space _ hid)
    (fun r hr => ⟨validIdent_no_space _ (href r hr).1,
      validIdent_no_space _ (href r hr).2⟩)]
  exact colToks_triple c hid (fun d hd => (hdv d hd).1)

theorem parsedLines_eq (cols : List ColumnDef) (hne : cols ≠ [])
    (h : ∀ c ∈ cols, colOk c) :
    parsedLines (cols.map columnSQL) = cols.map columnTriple := by
  induction cols with
  | nil => exact absurd rfl hne
  | cons c rest ih =>
    cases rest with
    | nil =>
      show parsedLines [columnSQL c] = [columnTriple c]
      rw [show parsedLines [columnSQL c] =
        [parseColLine (strLit "  " ++ columnSQL c)] from rfl]
      rw [parseColLine_column_last c (h c (by simp))]
    | cons c2 rest2 =>
      rw [show (c :: c2 :: rest2).map columnSQL =
        columnSQL c :: columnSQL c2 :: rest2.map columnSQL from rfl]
      rw [show parsedLines
        (columnSQL c :: columnSQL c2 :: rest2.map columnSQL) =
        parseColLine (strLit "  " ++ columnSQL c ++ strLit ",") ::
          parsedLines (columnSQL c2 :: rest2.map columnSQL) from rfl]
      rw [parseColLine_column c (h c (by simp))]
      rw [show columnSQL c2 :: rest2.map columnSQL =
        (c2 :: rest2).map columnSQL from rfl]
      rw [ih (by simp) (fun x hx => h x (by simp [hx]))]
      rfl

/-- C8 (amended): for a table definition with at least one column, an
identifier-shaped table name (the zod regex), and well-behaved free-string
fields — each default value contains no newline, no `NOT NULL` substring
and no trailing comma, reference names are identifier-shaped, policy names
contain no newline — parsing the CREATE TABLE clause of the generated SQL
recovers the table name and every column's (name, type, nullability)
triple.  The original claim, quantified over all schema-valid definitions,
fails: `C8_counterexample` smuggles a `NOT NULL` through `defaultValue`. -/
theorem C8_theorem (t : TableDefinition)
    (hcols : t.columns ≠ [])
    (htname : validIdent t.name = true)
    (hcol : ∀ c ∈ t.columns, colOk c)
    (hpol : ∀ p ∈ t.policies, '\n' ∉ p.name) :
    parseCreateTable (generateTableSQL t) =
      some (t.name, t.columns.map columnTriple) := by
  have hpre : ∀ l ∈ preLines t, '\n' ∉ l :=
    preLines_no_nl t (validIdent_no_nl _ htname)
      (fun c hc => validIdent_no_nl _ (hcol c hc).1)
      (fun c hc => columnSQL_no_nl c (validIdent_no_nl _ (hcol c hc).1)
        (fun d hd => ((hcol c hc).2.1 d hd).2.1)
        (fun r hr => ⟨validIdent_no_nl _ ((hcol c hc).2.2 r hr).1,
          validIdent_no_nl _ ((hcol c hc).2.2 r hr).2⟩))
      hpol
  rw [parseCreateTable, generateTableSQL_split t hcols hpre]
  have hsplit : preLines t ++ splitOnChar '\n' (tailAfter t) =
      headLines t ++ (createLine t ::
        (bodyLines (t.columns.map columnSQL) ++
          strLit ");" :: splitOnChar '\n' (tailAfter t))) := by
    rw [preLines]
    simp [List.append_assoc]
  rw [hsplit]
  rw [findCreate_append_skip _ _ (headLines_no_marker t)]
  have hcd : collectDefs (bodyLines (t.columns.map columnSQL) ++
      strLit ");" :: splitOnChar '\n' (tailAfter t)) =
      some (t.columns.map columnTriple) := by
    rw [collectDefs_walk, parsedLines_eq t.columns hcols hcol]
  exact findCreate_at_create t _ _ hcd

/-- Witness for C8: the amended theorem applied to `c8GoodTable`, whose
hypotheses all hold. -/
theorem C8_theorem_witness :
    c8GoodTable.columns ≠ [] ∧
    validIdent c8GoodTable.name = true ∧
    parseCreateTable (generateTableSQL c8GoodTable) =
      some (c8GoodTable.name, c8GoodTable.columns.map columnTriple) := by
  refine ⟨by decide, by decide, ?_⟩
  exact C8_theorem c8GoodTable (by decide) (by decide)
    (by
      intro c hc
      simp only [c8GoodTable, List.mem_cons, List.not_mem_nil, or_false] at hc
      rcases hc with rfl | rfl | rfl | rfl
      · exact ⟨by decide, fun d hd => Option.noConfusion hd,
          fun r hr => Option.noConfusion hr⟩
      · exact ⟨by decide, fun d hd => Option.noConfusion hd,
          fun r hr => Option.noConfusion hr⟩
      · refine ⟨by decide, ?_, fun r hr => Option.noConfusion hr⟩
        intro d hd
        rw [Option.some_inj] at hd
        subst hd
        exact ⟨by decide, by decide, by decide⟩
      · refine ⟨by decide, fun d hd => Option.noConfusion hd, ?_⟩
        intro r hr
        rw [Option.some_inj] at hr
        subst hr
        exact ⟨by decide, by decide⟩)
    (by
      intro p hp
      simp only [c8GoodTable, List.mem_cons, List.not_mem_nil, or_false] at hp
      subst hp
      decide)

end BoltSupabase
